import Mathlib

/-!
# Verification of the Edraak-courses conversion pipeline

Shallow embedding of the course-tree extraction and transformation
pipeline found in `libedx.py` and `sushichef.py`, together with theorems
settling the specification claims about it.

Conventions used throughout:
* Python dicts holding string-valued fields are modelled as insertion-ordered
  association lists (`List (String × String)`) with `dictSet`/`dictUpdate`
  mirroring `d[k] = v` and `d.update(other)`.
* Python dicts with a fixed set of known keys are modelled as structures whose
  optional fields (`Option _`) encode key presence; a `KeyError` on a missing
  key becomes `Except.error "KeyError ..."`.
* Functions that can raise are modelled in `Except String`.
* Unbounded recursion over trees is driven by an explicit `fuel : Nat`
  argument (a termination device only; the Python recursion is unbounded and
  every theorem either quantifies over the fuel or supplies one that is larger
  than the tree depth, where the fuel semantics coincides with the code's).
* External library calls (BeautifulSoup parses, `html2text`, translation) are
  represented by structured views of their results: a node carries the parsed
  view of its raw `content`, and text extraction is an opaque function
  parameter, since its output never influences control flow in the claims.
-/

/-! ## Small Python-flavoured helpers -/

/-- `optOr a b` is Python's `a if a is not None else b` (used to state
`dict.update` lookup laws). -/
def optOr {α : Type} (a b : Option α) : Option α :=
  match a with
  | some x => some x
  | none => b

/-- Access a dict key that must be present: `d['k']` raises `KeyError` when
the key is absent. -/
def pyKey {α : Type} (o : Option α) : Except String α :=
  match o with
  | some x => Except.ok x
  | none => Except.error "KeyError"

/-- Dereference a BeautifulSoup query result that must not be `None`
(`None.foo` raises `AttributeError`). -/
def pyAttr {α : Type} (o : Option α) : Except String α :=
  match o with
  | some x => Except.ok x
  | none => Except.error "AttributeError"

/-- First element of a list, raising `IndexError` on an empty list
(Python's `xs[0]`). -/
def pyHead {α : Type} : List α → Except String α
  | [] => Except.error "IndexError"
  | x :: _ => Except.ok x

/-- Auxiliary: is `needle` a contiguous infix of `hay`? -/
def infixAux (needle : List Char) : List Char → Bool
  | [] => needle.isEmpty
  | c :: rest => needle.isPrefixOf (c :: rest) || infixAux needle rest

/-- Python's substring test `needle in hay`. -/
def strContains (hay needle : String) : Bool :=
  infixAux needle.data hay.data

/-- Auxiliary for `collapseSpaces`: the flag records whether the previous
kept character was a space. -/
def csAux : Bool → List Char → List Char
  | _, [] => []
  | prevSpace, c :: rest =>
    if c = ' ' then
      if prevSpace then csAux true rest
      else ' ' :: csAux true rest
    else c :: csAux false rest

/-- Python's `re.sub(' +', ' ', s)`: collapse runs of spaces. -/
def collapseSpaces (s : String) : String :=
  ⟨csAux false s.data⟩

/-- Python's `str.strip()`: drop leading and trailing whitespace.
(Defined on the character list so that concrete instances reduce in the
kernel; the library `String.trim` does not.) -/
def pyStrip (s : String) : String :=
  ⟨((s.data.dropWhile Char.isWhitespace).reverse.dropWhile
      Char.isWhitespace).reverse⟩

/-- Python's `s.startswith(pre)`. -/
def strStartsWith (s pre : String) : Bool :=
  pre.data.isPrefixOf s.data

/-- Worker for `strReplace`; the fuel is the input length (each step
consumes at least one character). -/
def replaceFuel (pat rep : List Char) : Nat → List Char → List Char
  | 0, l => l
  | fuel + 1, l =>
    match l with
    | [] => []
    | c :: rest =>
      if (!pat.isEmpty) && pat.isPrefixOf (c :: rest) then
        rep ++ replaceFuel pat rep fuel ((c :: rest).drop pat.length)
      else c :: replaceFuel pat rep fuel rest
termination_by structural fuel _ => fuel

/-- Python's `s.replace(pat, rep)`: replace all non-overlapping occurrences
left to right (no occurrence of an empty pattern arises in the source). -/
def strReplace (s pat rep : String) : String :=
  ⟨replaceFuel pat.data rep.data s.data.length s.data⟩

/-- Python's `s.lower()` for the ASCII extensions handled by the chef. -/
def strLower (s : String) : String :=
  ⟨s.data.map Char.toLower⟩

/-- `os.path.basename`: the part of the path after the last `/`. -/
def basename (s : String) : String :=
  ⟨((s.data.reverse.takeWhile (fun c => c ≠ '/')).reverse)⟩

/-- Auxiliary for `splitExtDot`: scan a basename; a suffix starting at a dot
counts as an extension only when an earlier character is not a dot (so
`.bashrc` has no extension, as in `os.path.splitext`). -/
def splitExtAux : List Char → List Char → Option (List Char)
  | _, [] => none
  | acc, '.' :: rest =>
    match splitExtAux (acc ++ ['.']) rest with
    | some e => some e
    | none => if acc.any (fun c => c ≠ '.') then some ('.' :: rest) else none
  | acc, c :: rest => splitExtAux (acc ++ [c]) rest

/-- `os.path.splitext(basename)[1]`: the dotted extension (or `""`). -/
def splitExtDot (s : String) : String :=
  match splitExtAux [] s.data with
  | some e => ⟨e⟩
  | none => ""

/-- `os.path.join(a, b)` for the forward-slash paths used by the chef. -/
def pathJoin (a b : String) : String :=
  if a = "" then b else a ++ "/" ++ b

/-! ## Python string-keyed dicts as insertion-ordered association lists

A real Python dict cannot hold a key twice, so the model keeps the first
occurrence authoritative: `dictSet` replaces the first matching key in place
(keeping its position, as CPython does) and appends a missing key at the end.
-/

/-- First-match lookup, `d.get(k)`. -/
def dictLookup (d : List (String × String)) (k : String) : Option String :=
  (d.find? (fun p => p.1 == k)).map (fun p => p.2)

/-- `d[k] = v`: replace the existing key in place, else append. -/
def dictSet : List (String × String) → String → String → List (String × String)
  | [], k, v => [(k, v)]
  | p :: rest, k, v =>
    if p.1 = k then (k, v) :: rest else p :: dictSet rest k v

/-- `d.update(other)`: apply `d[k] = v` for each entry of `other` in order. -/
def dictUpdate (d other : List (String × String)) : List (String × String) :=
  other.foldl (fun acc p => dictSet acc p.1 p.2) d

/-- The keys of a dict model are pairwise distinct (always true of a real
Python dict). -/
def keysNodup (d : List (String × String)) : Prop :=
  (d.map (fun p => p.1)).Nodup

/-! ## Constants from `sushichef.py` -/

/-- `SKIP_KINDS`: edX content kinds not supported in Kolibri. -/
def SKIP_KINDS : List String := ["wiki"]

/-- `EDRAAK_STRINGS['learning_objectives']`. -/
def LEARNING_OBJECTIVES_STRINGS : List String :=
  ["الأهداف التعليمية", "الاهداف التعليمية"]

/-- `EDRAAK_STRINGS['knowledge_check']`. -/
def KNOWLEDGE_CHECK_STRINGS : List String :=
  ["التحقق من المعرفة"]

/-- `TITLES_TO_DROP` (organization-specific boilerplate titles). -/
def TITLES_TO_DROP : List String :=
  ["التسجيل في المساق",
   "كيفية استخدام المنصة",
   "توضيح الايقونات",
   "استخدام الالة الحاسبة",
   "محاكي الاختبار",
   "كيفية إصدار الشهادة",
   "الإنهاء من المساق",
   "إستبيان التسجيل في المساق",
   "تابعونا على مواقع التواصل الاجتماعي",
   "إستبيان الانتهاء من المساق",
   "إستبيان إنهاء المساق",
   "استبيان نهاية المساق",
   "مفاجأة المساق"]

/-- `DROP_EXPLANATIONS`: boilerplate explanation text blocklist. -/
def DROP_EXPLANATIONS : List String :=
  ["release of the iPod allowed consumers"]

/-- `FUZZY_MATCH_THRESHOLD`. -/
def FUZZY_MATCH_THRESHOLD : Nat := 92

/-! ## The fuzzy title-similarity score (`fuzzywuzzy`'s `fuzz.ratio`)

`fuzz.ratio(a, b)` is the normalised edit similarity
`round(100 * (|a| + |b| - dist(a, b)) / (|a| + |b|))` where `dist` is the
Levenshtein distance with substitution weight 2 (equivalently
`100 * 2*M / (|a| + |b|)` for `M` the number of matched characters).  The
library is external to the repository; the computation below follows its
documented behaviour.  Rounding of exact halves (banker's rounding in Python)
is modelled as round-half-up; no theorem in this file evaluates the score at
an exact half. -/

/-- One inner step of the Levenshtein dynamic program: given the previous
row's remaining cells `p :: ps`, the diagonal value and the cell just
computed to the left, produce the rest of the current row. -/
def levStep (x : Char) : List Char → List Nat → Nat → Nat → List Nat
  | [], _, _, _ => []
  | y :: ys, prev, diag, left =>
    match prev with
    | [] => []
    | p :: ps =>
      let cell := min (min (left + 1) (p + 1)) (diag + (if x = y then 0 else 2))
      cell :: levStep x ys ps p cell
termination_by structural l _ _ _ => l

/-- One full row of the dynamic program (for one more character of the first
string). -/
def levRow (x : Char) (ys : List Char) (prev : List Nat) : List Nat :=
  match prev with
  | [] => []
  | p0 :: ps => (p0 + 1) :: levStep x ys ps p0 (p0 + 1)

/-- Levenshtein distance with substitution weight 2 (insert/delete weight 1),
the distance underlying `fuzz.ratio`. -/
def levenshtein2 (xs ys : List Char) : Nat :=
  (xs.foldl (fun row x => levRow x ys row) (List.range (ys.length + 1))).getLastD 0

/-- `fuzz.ratio(a, b)` as a natural number in `0..100`. -/
def fuzzScore (a b : String) : Nat :=
  let t := a.length + b.length
  if t = 0 then 100
  else
    let d := levenshtein2 a.data b.data
    (200 * (t - d) + t) / (2 * t)


/-! ## The Reference Resolver and Tree Builder (`libedx.py`)

The on-disk course is modelled as two lookup functions: `xml` returns the
BeautifulSoup parse of the XML file at `{coursedir}/{kind}/{name}.xml` (or
`{coursedir}/{name}.xml` when the kind is `none`), and `raw` returns the raw
text of the file at `{coursedir}/{kind}/{name}.{ext}` used by the leaf
loaders.  `parse_xml_file` only inspects the root element's tag, attributes
and *direct child elements* (whitespace `NavigableString`s between elements
are skipped by the source loop and are not modelled). -/

/-- A direct child element of a parsed XML root: tag name and attributes. -/
structure XmlChildEl where
  name : String
  attrs : List (String × String)
deriving Repr, DecidableEq

/-- The parse of one XML fragment file: its root elements (the source asserts
there is exactly one) with tag name, attributes and direct child elements. -/
structure XmlRoot where
  name : String
  attrs : List (String × String)
  childEls : List XmlChildEl
deriving Repr, DecidableEq

/-- The parsed document: `list(doc.children)` with text nodes removed. -/
structure XmlDoc where
  roots : List XmlRoot
deriving Repr, DecidableEq

/-- The staged course directory. -/
structure FS where
  xml : Option String → String → Option XmlDoc
  raw : String → String → Option String

/-- An unresolved child reference, `{kind: ..., url_name/slug: ...}`. -/
structure ChildRef where
  kind : String
  url_name : Option String := none
  slug : Option String := none
  ext : Option String := none
deriving Repr, DecidableEq

/-- A resolved node: the underlying Python dict split into its scalar
fields (an insertion-ordered dict) and its `children` entry (absent for a
passed-through wiki reference). -/
inductive RNode where
  | mk (fields : List (String × String)) (children : Option (List RNode))

/-- The scalar fields of a resolved node. -/
def RNode.fields : RNode → List (String × String)
  | .mk fs _ => fs

/-- The `children` entry of a resolved node (`none` when the dict has no
such key). -/
def RNode.children : RNode → Option (List RNode)
  | .mk _ cs => cs

/-- `parse_xml_file(coursedir, kind, name)`: parse one fragment file and
return its scalar fields (`kind`, `id` and the root attributes, later keys
overriding earlier ones exactly as `data.update(doc_root.attrs)` does) plus
one unresolved reference per direct child element.  Raises when the file is
missing, when there is not exactly one root element, when a child element
does not carry exactly one attribute, or when that attribute is not the one
the child's kind requires. -/
def parseXmlFile (fs : FS) (kind : Option String) (name : String) :
    Except String (List (String × String) × List ChildRef) := do
  let doc ← match fs.xml kind name with
    | some d => Except.ok d
    | none => Except.error "ValueError: XML file not found"
  let root ← match doc.roots with
    | [r] => Except.ok r
    | _ => Except.error "AssertionError: Found more than one root element!"
  let fields := dictUpdate [("kind", root.name), ("id", name)] root.attrs
  let refs ← root.childEls.foldlM (fun (acc : List ChildRef) child => do
    if child.attrs.length = 1 then
      let ckind := child.name
      if ckind = "wiki" then
        let slug ← pyKey (dictLookup child.attrs "slug")
        pure (acc ++ [{ kind := ckind, slug := some slug }])
      else if ckind = "html" then
        let un ← pyKey (dictLookup child.attrs "url_name")
        pure (acc ++ [{ kind := ckind, url_name := some un, ext := some "html" }])
      else
        let un ← pyKey (dictLookup child.attrs "url_name")
        pure (acc ++ [{ kind := ckind, url_name := some un }])
    else
      Except.error "AssertionError: encountered more than one attr") []
  pure (fields, refs)

/-- `parse_html_file`: load the raw HTML into `content`; the BeautifulSoup
link scan in the source computes an unused local and is omitted. -/
def parseHtmlFile (fs : FS) (kind name : String) : Except String RNode := do
  match fs.raw kind name with
  | some html =>
    pure (RNode.mk [("kind", kind), ("url_name", name), ("content", html)]
      (some []))
  | none => Except.error "ValueError: HTML file not found"

/-- `parse_video_file`: load the raw XML into `content`. -/
def parseVideoFile (fs : FS) (kind name : String) : Except String RNode := do
  match fs.raw kind name with
  | some xml =>
    pure (RNode.mk [("kind", kind), ("url_name", name), ("content", xml)]
      (some []))
  | none => Except.error "ValueError: Video XML file not found"

/-- `parse_problem_file`: load the raw XML into `content`. -/
def parseProblemFile (fs : FS) (kind name : String) : Except String RNode := do
  match fs.raw kind name with
  | some xml =>
    pure (RNode.mk [("kind", kind), ("url_name", name), ("content", xml)]
      (some []))
  | none => Except.error "ValueError: HTML file not found"

/-- `parse_xml_file_refusive`: resolve a fragment file recursively,
dispatching on each reference's kind (wiki passes through unresolved; html,
video and problem load their raw file; anything else recurses).  The
`parse_problem_file` result is always a non-empty dict, so the source's
`if problemdata:` guard always appends. -/
def parseXmlFileRefusive (fs : FS) : Nat → Option String → String →
    Except String RNode
  | 0, _, _ => Except.error "RecursionError"
  | fuel + 1, kind, name => do
    let (fields, refs) ← parseXmlFile fs kind name
    let children ← refs.foldlM (fun (acc : List RNode) ref => do
      if ref.kind = "wiki" then
        pure (acc ++ [RNode.mk
          [("kind", "wiki"), ("slug", (ref.slug.getD ""))] none])
      else if ref.kind = "html" then
        let un ← pyKey ref.url_name
        let node ← parseHtmlFile fs ref.kind un
        pure (acc ++ [node])
      else if ref.kind = "video" then
        let un ← pyKey ref.url_name
        let node ← parseVideoFile fs ref.kind un
        pure (acc ++ [node])
      else if ref.kind = "problem" then
        let un ← pyKey ref.url_name
        let node ← parseProblemFile fs ref.kind un
        pure (acc ++ [node])
      else
        let un ← pyKey ref.url_name
        let node ← parseXmlFileRefusive fs fuel (some ref.kind) un
        pure (acc ++ [node])) []
    pure (RNode.mk fields (some children))

/-- `extract_course_tree(coursedir)`: resolve `course/course.xml`
recursively, resolve the flat `course.xml` the same way, delete the flat
result's `children`, and merge the remaining flat fields over the recursive
result (`recusivedata.update(flatdata)`). -/
def extractCourseTree (fs : FS) (fuel : Nat) : Except String RNode := do
  let recusivedata ← parseXmlFileRefusive fs fuel (some "course") "course"
  let flatdata ← parseXmlFileRefusive fs fuel none "course"
  pure (RNode.mk (dictUpdate recusivedata.fields flatdata.fields)
    recusivedata.children)

/-! ## The Classifier / Pruner (`sushichef.py`, clean pass)

Nodes of the resolved course tree as consumed by `clean_subtree` and
`transform_tree`.  The scalar part models the Python dict's known keys
(`Option` encodes key presence).  The raw `content` strings of video and
problem nodes are carried as the structured views that the BeautifulSoup
calls in the source produce from them: `vdoc` is the flattened
document-order element list of a video XML (`doc.find(...)` queries),
`pdocs` is the list of `<problem>` elements, each given by its direct child
sequence (prompt paragraphs, response elements with their nested choice
groups, solution elements); `iframe`/`links` are the `doc.find('iframe')` /
`doc.find_all('a')` views of an html item's content. -/

/-- An element of a parsed video XML document, in document order. -/
structure VElem where
  name : String
  attrs : List (String × String)
deriving Repr, DecidableEq

/-- A `<choice>` element: its optional `correct` attribute and its text. -/
structure Choice where
  correct : Option String := none
  text : String := ""
deriving Repr, DecidableEq

/-- A direct child element of a `<problem>` element: a prompt paragraph, a
single-select response (with its nested `<choicegroup>`), a multi-select
response (with its nested `<checkboxgroup>`), a solution element, or any
other element. -/
inductive PElem where
  | p (text : String)
  | mcq (choicegroup : Option (List Choice))
  | cresp (checkboxgroup : Option (List Choice))
  | solution (text : String)
  | other (name : String)
deriving Repr, DecidableEq

/-- A question record extracted from a problem node. -/
structure Question where
  question_type : String
  id : String
  question : String
  correct_answer : Option String := none
  correct_answers : List String := []
  all_answers : List String := []
  hints : List String := []
deriving Repr, DecidableEq

/-- A downloadable-resource descriptor. -/
structure Resource where
  relhref : String
  ext : String
  filename : String
  title : String
  link_html : String
deriving Repr, DecidableEq

/-- The `doc.find('iframe')` view of an html item's content. -/
structure IframeEl where
  src : Option String := none
  title : Option String := none
  raw : String := ""
deriving Repr, DecidableEq

/-- One `<a>` element from `doc.find_all('a')`. -/
structure LinkEl where
  href : Option String := none
  text : String := ""
  raw : String := ""
deriving Repr, DecidableEq

/-- The scalar fields of a course-tree node dict. -/
structure CData where
  kind : String
  url_name : Option String := none
  display_name : Option String := none
  slug : Option String := none
  course : Option String := none
  course_image : Option String := none
  description : Option String := none
  text : Option String := none
  youtube_id : Option String := none
  path : Option String := none
  vdoc : List VElem := []
  pdocs : List (List PElem) := []
  iframe : Option IframeEl := none
  links : List LinkEl := []
  downloadable_resources : Option (List Resource) := none
  questions : Option (List Question) := none
deriving Repr, DecidableEq

/-- A course-tree node: scalar fields plus the optional `children` entry. -/
inductive CNode where
  | mk (data : CData) (children : Option (List CNode))

/-- Scalar fields of a node. -/
def CNode.data : CNode → CData
  | .mk d _ => d

/-- The `children` entry (`none` when the dict has no such key). -/
def CNode.children : CNode → Option (List CNode)
  | .mk _ cs => cs

/-- The node's `kind`. -/
def CNode.kind (n : CNode) : String := n.data.kind

/-- The children list, defaulting to empty (`subtree.get('children', [])`). -/
def CNode.childList (n : CNode) : List CNode := n.children.getD []

/-- Python's `title and any(s in title for s in phrases)` for the optional
`display_name` of a vertical. -/
def titleMatchesAny (title : Option String) (phrases : List String) : Bool :=
  match title with
  | none => false
  | some t => (!(t == "")) && phrases.any (fun ph => strContains t ph)

/-- `guess_vertical_type(vertical)`: classify a vertical by title keywords
first, then by the set of its children's kinds.  Returns `none` for an
unrecognized vertical.  Accessing `vertical['children']` raises `KeyError`
when the key is absent (only reached when neither title phrase matches). -/
def guessVerticalType (v : CNode) : Except String (Option String) :=
  if titleMatchesAny v.data.display_name LEARNING_OBJECTIVES_STRINGS then
    Except.ok (some "learning_objectives_vertical")
  else if titleMatchesAny v.data.display_name KNOWLEDGE_CHECK_STRINGS then
    Except.ok (some "knowledge_check_vertical")
  else
    match v.children with
    | none => Except.error "KeyError"
    | some cs =>
      let kinds := cs.map (fun c => c.data.kind)
      if kinds.contains "discussion" then Except.ok (some "discussion_vertical")
      else if kinds.contains "video" then Except.ok (some "video_vertical")
      else if kinds.contains "problem" && !(kinds.contains "video") then
        Except.ok (some "test_vertical")
      else if (!kinds.isEmpty) && kinds.all (fun k => k == "html") then
        Except.ok (some "html_vertical")
      else Except.ok none

/-- `process_video(video)`: extract `youtube_id` or `path` from the video's
content, trying the three source rules in order; raises
`Unrecognized video format encountered` when none applies.  Rule (c) guards
the extracted attribute with Python truthiness (`if youtube_id:`), so an
absent *or empty* `youtube_id_1_0` attribute falls through to the raise. -/
def processVideo (video : CNode) : Except String CNode :=
  let doc := video.data.vdoc
  match doc.find? (fun e =>
      e.name == "encoded_video" && dictLookup e.attrs "profile" == some "youtube") with
  | some el =>
    match dictLookup el.attrs "url" with
    | some url =>
      Except.ok (CNode.mk { video.data with youtube_id := some url } video.children)
    | none => Except.error "KeyError"
  | none =>
    match doc.find? (fun e => e.name == "source") with
    | some el =>
      match dictLookup el.attrs "src" with
      | some src =>
        Except.ok (CNode.mk { video.data with path := some src } video.children)
      | none => Except.error "KeyError"
    | none =>
      match doc.find? (fun e => e.name == "video") with
      | some el =>
        match dictLookup el.attrs "youtube_id_1_0" with
        | some yid =>
          if yid == "" then
            Except.error "ValueError: Unrecognized video format encountered"
          else
            Except.ok (CNode.mk { video.data with youtube_id := some yid }
              video.children)
        | none => Except.error "ValueError: Unrecognized video format encountered"
      | none => Except.error "ValueError: Unrecognized video format encountered"

/-- Resource extension: `os.path.splitext(filename)[1][1:].lower()`. -/
def resourceExt (filename : String) : String :=
  strLower ⟨(splitExtDot filename).data.drop 1⟩

/-- The `for link in links` loop of
`extract_downloadable_resouces_from_html_item` (CASE B).  The `relhref`
local persists across iterations (threaded as `st`): a link whose href does
not start with `/static` logs a warning and leaves `relhref` unchanged, so
on the first such link `relhref` is still unassigned and building the
resource dict raises `UnboundLocalError`. -/
def extractLinksLoop (fsExists : String → Bool) (coursedir : String)
    (unOpt : Option String) :
    List LinkEl → Option String → Except String (List Resource × List String)
  | [], _ => Except.ok ([], [])
  | l :: ls, st => do
    let href0 ← pyKey l.href
    let href := pyStrip href0
    let filename := basename href
    let (st2, ws1) ←
      if strStartsWith href "/static" then
        let r := coursedir ++ href
        if fsExists r then pure (some r, ([] : List String))
        else
          let r2 := strReplace r "_" " "
          pure (some r2,
            if fsExists r2 then ([] : List String)
            else ["file not fount at relhref=" ++ r2])
      else do
        let un ← pyKey unOpt
        pure (st, ["unknown href=" ++ href ++ " in html with url_name=" ++ un])
    let relhref ← match st2 with
      | some r => pure r
      | none =>
        Except.error "UnboundLocalError: local variable relhref referenced before assignment"
    let res : Resource :=
      { relhref := relhref, ext := resourceExt filename, filename := filename,
        title := pyStrip l.text, link_html := l.raw }
    let (rest, ws2) ← extractLinksLoop fsExists coursedir unOpt ls st2
    pure (res :: rest, ws1 ++ ws2)

/-- `extract_downloadable_resouces_from_html_item(item, coursedir)`: returns
the extracted resources together with the warnings logged along the way.
CASE A (a single iframe, typically an embedded PDF) produces one resource;
otherwise CASE B treats every link as a resource. -/
def extractDownloadableResoucesFromHtmlItem (fsExists : String → Bool)
    (item : CNode) (coursedir : String) :
    Except String (List Resource × List String) := do
  if item.data.kind == "html" then
    match item.data.iframe with
    | some ifr => do
      let src ← pyKey ifr.src
      let href := pyStrip src
      let filename := basename href
      if strStartsWith href "/static" then
        let r := coursedir ++ href
        let (relhref, ws) :=
          if fsExists r then (r, ([] : List String))
          else
            let r2 := strReplace r "_" " "
            (r2, if fsExists r2 then ([] : List String)
                 else ["file not fount at relhref=" ++ r2])
        let res : Resource :=
          { relhref := relhref, ext := resourceExt filename,
            filename := filename, title := ifr.title.getD "no title",
            link_html := ifr.raw }
        pure ([res], ws)
      else do
        let _un ← pyKey item.data.url_name
        Except.error "UnboundLocalError: local variable relhref referenced before assignment"
    | none =>
      extractLinksLoop fsExists coursedir item.data.url_name item.data.links none
  else Except.error "AssertionError"

/-! ## Question extraction (`parse_questions_from_problem`) -/

/-- The single-select response elements of a problem with their document
positions (`problem_el.find_all('multiplechoiceresponse')`). -/
def mcqsOf (els : List PElem) : List (Nat × Option (List Choice)) :=
  els.enum.filterMap (fun pe =>
    match pe.2 with
    | PElem.mcq cg => some (pe.1, cg)
    | _ => none)

/-- The multi-select response elements of a problem with their document
positions (`problem_el.find_all('choiceresponse')`). -/
def crespsOf (els : List PElem) : List (Nat × Option (List Choice)) :=
  els.enum.filterMap (fun pe =>
    match pe.2 with
    | PElem.cresp cb => some (pe.1, cb)
    | _ => none)

/-- `element.find_previous_sibling('p')`: the text of the nearest earlier
sibling paragraph. -/
def findPrevP (els : List PElem) (pos : Nat) : Option String :=
  (els.take pos).reverse.findSome? (fun e =>
    match e with
    | PElem.p t => some t
    | _ => none)

/-- `element.findNext('solution')`: the text of the first solution element
strictly after position `pos` in document order.  (The response element's
own subtree holds only choice elements, so the next solution in document
order is the next later sibling solution; it need not be adjacent.) -/
def findNextSolution (els : List PElem) (pos : Nat) : Option String :=
  (els.drop (pos + 1)).findSome? (fun e =>
    match e with
    | PElem.solution t => some t
    | _ => none)

/-- Turn the solution found by `findNext` into the question's hint list:
strip `Explanation` occurrences, trim, and drop it when it matches the
`DROP_EXPLANATIONS` blocklist by substring. -/
def hintsForSolution (sOpt : Option String) : List String :=
  match sOpt with
  | none => []
  | some stext =>
    let cleaned := pyStrip (strReplace stext "Explanation" "")
    if DROP_EXPLANATIONS.any (fun de => strContains cleaned de) then []
    else [cleaned]

/-- The choice loop of the single-select branch: collect every trimmed
choice text and remember the last choice whose `correct` attribute is
`"true"` (each `choice['correct']` access can raise `KeyError`). -/
def scanChoicesSingle : List Choice → Except String (List String × Option String)
  | [] => Except.ok ([], none)
  | c :: cs => do
    let corr ← pyKey c.correct
    let t := pyStrip c.text
    let (rest, rc) ← scanChoicesSingle cs
    pure (t :: rest, optOr rc (if corr == "true" then some t else none))

/-- The choice loop of the multi-select branch: collect every trimmed choice
text and every correct one, in order. -/
def scanChoicesMulti : List Choice → Except String (List String × List String)
  | [] => Except.ok ([], [])
  | c :: cs => do
    let corr ← pyKey c.correct
    let t := pyStrip c.text
    let (rest, rc) ← scanChoicesMulti cs
    pure (t :: rest, (if corr == "true" then [t] else []) ++ rc)

/-- Build the `i`-th single-select question from the response element at
document position `pos` (with nested choicegroup `cgOpt`). -/
def mkMcqQuestion (url : String) (els : List PElem) (i pos : Nat)
    (cgOpt : Option (List Choice)) : Except String Question := do
  let qp ← pyAttr (findPrevP els pos)
  let qtext := collapseSpaces (pyStrip qp)
  let cg ← pyAttr cgOpt
  let (allAns, corr) ← scanChoicesSingle cg
  pure { question_type := "single_selection",
         id := url ++ ("-" ++ toString (i + 1)),
         question := qtext,
         correct_answer := corr,
         all_answers := allAns,
         hints := hintsForSolution (findNextSolution els pos) }

/-- Build the `j`-th multi-select question from the response element at
document position `pos` (with nested checkboxgroup `cbOpt`). -/
def mkCrespQuestion (url : String) (els : List PElem) (j pos : Nat)
    (cbOpt : Option (List Choice)) : Except String Question := do
  let qp ← pyAttr (findPrevP els pos)
  let qtext := collapseSpaces (pyStrip qp)
  let cb ← pyAttr cbOpt
  let (allAns, corrs) ← scanChoicesMulti cb
  pure { question_type := "multiple_selection",
         id := url ++ ("-" ++ toString (j + 1)),
         question := qtext,
         correct_answers := corrs,
         all_answers := allAns,
         hints := hintsForSolution (findNextSolution els pos) }

/-- The `for i, multiplechoiceresponse in enumerate(...)` loop. -/
def buildMcqQuestions (url : String) (els : List PElem) :
    List (Nat × (Nat × Option (List Choice))) → Except String (List Question)
  | [] => Except.ok []
  | (i, (pos, cg)) :: rest => do
    let q ← mkMcqQuestion url els i pos cg
    let qs ← buildMcqQuestions url els rest
    pure (q :: qs)

/-- The `for j, choiceresponse in enumerate(...)` loop. -/
def buildCrespQuestions (url : String) (els : List PElem) :
    List (Nat × (Nat × Option (List Choice))) → Except String (List Question)
  | [] => Except.ok []
  | (j, (pos, cb)) :: rest => do
    let q ← mkCrespQuestion url els j pos cb
    let qs ← buildCrespQuestions url els rest
    pure (q :: qs)

/-- `parse_questions_from_problem(problem)`: extract the single-select
questions, then the multi-select questions, attach them to the problem node,
and fail when no question was found at all. -/
def parseQuestionsFromProblem (prob : CNode) : Except String CNode := do
  if prob.data.kind == "problem" then
    let els ← (match prob.data.pdocs with
      | [e] => Except.ok e
      | _ => Except.error "AssertionError: found multiple problem elements")
    let url ← pyKey prob.data.url_name
    let qsA ← buildMcqQuestions url els (mcqsOf els).enum
    let qsB ← buildCrespQuestions url els (crespsOf els).enum
    let questions := qsA ++ qsB
    if questions.isEmpty then
      Except.error "ValueError: Parsing error -- no questoins found in this problem"
    else
      pure (CNode.mk { prob.data with questions := some questions } prob.children)
  else Except.error "AssertionError"

/-! ## `clean_subtree` -/

/-- The per-kind enrichment at the top of `clean_subtree`: rewrite video
nodes via `process_video`; annotate html nodes with their downloadable
resources and, when there are none, with their extracted plain text.
`exText` stands for `extract_text_from_html_item` (BeautifulSoup +
`html2text` + optional machine translation — external to this model). -/
def enrichNode (fsExists : String → Bool) (exText : CNode → String)
    (coursedir : String) (n : CNode) : Except String CNode := do
  if n.data.kind == "video" then processVideo n
  else if n.data.kind == "html" then do
    let (resources, _ws) ←
      extractDownloadableResoucesFromHtmlItem fsExists n coursedir
    let n1 := CNode.mk { n.data with downloadable_resources := some resources }
      n.children
    if resources.isEmpty then
      pure (CNode.mk { n1.data with text := some (exText n1) } n1.children)
    else pure n1
  else pure n

/-- The child-filtering loop of `clean_subtree`, parameterised by the
recursive call `cleanFn` to apply to surviving children.  Returns the final
value assigned to the parent's `description` (by learning-objectives
hoisting; the last assignment wins) together with the new children list. -/
def cleanChildrenAux (cleanFn : CNode → Except String CNode)
    (exText : CNode → String) :
    List CNode → Except String (Option String × List CNode)
  | [] => Except.ok (none, [])
  | child :: rest => do
    if SKIP_KINDS.contains child.data.kind then
      cleanChildrenAux cleanFn exText rest
    else
      let childTitle := child.data.display_name.getD ""
      if TITLES_TO_DROP.any (fun t => strContains childTitle t) then
        cleanChildrenAux cleanFn exText rest
      else if child.data.kind == "vertical" then do
        let vt ← guessVerticalType child
        match vt with
        | none => Except.error "ValueError: unrecognized vertical type..."
        | some "discussion_vertical" => cleanChildrenAux cleanFn exText rest
        | some "learning_objectives_vertical" => do
          let gcs ← pyKey child.children
          let g ← pyHead gcs
          let text := exText g
          let (dRest, csRest) ← cleanChildrenAux cleanFn exText rest
          pure (optOr dRest (some text), csRest)
        | some _ => do
          let c ← cleanFn child
          let (dRest, csRest) ← cleanChildrenAux cleanFn exText rest
          pure (dRest, c :: csRest)
      else do
        let c ← cleanFn child
        let (dRest, csRest) ← cleanChildrenAux cleanFn exText rest
        pure (dRest, c :: csRest)

/-- `clean_subtree(subtree, coursedir)`: enrich the node, filter its
children (dropping skip-listed kinds, drop-listed titles, discussion
verticals, and learning-objectives verticals — the latter hoisting their
first child's text onto this node's `description`), recurse into the
survivors, and always set the node's `children` entry to the filtered list. -/
def cleanSubtree (fsExists : String → Bool) (exText : CNode → String)
    (coursedir : String) : Nat → CNode → Except String CNode
  | 0, _ => Except.error "RecursionError"
  | fuel + 1, subtree => do
    let n ← enrichNode fsExists exText coursedir subtree
    let (descUpd, newChildren) ←
      match n.children with
      | some cs =>
        cleanChildrenAux (cleanSubtree fsExists exText coursedir fuel) exText cs
      | none => pure (none, [])
    let d2 :=
      match descUpd with
      | some t => { n.data with description := some t }
      | none => n.data
    pure (CNode.mk d2 (some newChildren))
termination_by structural fuel _ => fuel

/-! ## The Schema Transformer (`sushichef.py`, transform pass)

Output nodes of the target schema.  The constant `license` attached to every
node (an opaque object from the external licensing helper) and the constant
`language='ar'` are not part of the model; `content_kinds`/`file_types`
constants are their string values.  Zip-producing side effects
(`package_html_content_as_html5_zip_file`, `make_html5zip_from_resources`)
are modelled as opaque path-producing functions. -/

/-- A file reference attached to an output node. -/
structure TFile where
  file_type : String
  path : Option String := none
  youtube_id : Option String := none
  high_resolution : Option Bool := none
  ffmpeg_crf : Option Nat := none
deriving Repr, DecidableEq

/-- The scalar fields of an output node. -/
structure TData where
  kind : String
  title : String := ""
  source_id : Option String := none
  description : String := ""
  author : Option String := none
  thumbnail : Option String := none
  m : Option Nat := none
  randomize : Option Bool := none
  questions : List Question := []
  files : List TFile := []
deriving Repr, DecidableEq

/-- An output node: scalar fields plus the optional `children` entry
(topic nodes have one; exercise/video/document/html5 nodes do not). -/
inductive TNode where
  | mk (data : TData) (children : Option (List TNode))

/-- Scalar fields of an output node. -/
def TNode.data : TNode → TData
  | .mk d _ => d

/-- The `children` entry of an output node. -/
def TNode.children : TNode → Option (List TNode)
  | .mk _ cs => cs

/-- The node's title. -/
def TNode.title (t : TNode) : String := t.data.title

/-- The children list, defaulting to empty. -/
def TNode.childList (t : TNode) : List TNode := t.children.getD []

/-- The question-aggregation loop of `transform_vertical_to_exercise`:
parse every problem child and concatenate the parsed question lists in
document order. -/
def collectProblemQuestions : List CNode → Except String (List Question)
  | [] => Except.ok []
  | c :: cs => do
    if c.data.kind == "problem" then
      let parsed ← parseQuestionsFromProblem c
      let qs ← collectProblemQuestions cs
      pure (parsed.data.questions.getD [] ++ qs)
    else collectProblemQuestions cs

/-- `transform_vertical_to_exercise(vertical, parent_title=None)`: returns
`none` when the vertical has no `children` entry; otherwise builds one
exercise node whose description comes from a leading html child, whose title
is the parent-qualified title only when `parent_title` is passed, and whose
mastery `m` starts at 5 and is lowered to the question count when fewer than
5 questions were aggregated. -/
def transformVerticalToExercise (exText : CNode → String) (vertical : CNode)
    (parentTitle : Option String) : Except String (Option TNode) := do
  match vertical.children with
  | none => pure none
  | some cs => do
    let firstChild ← pyHead cs
    let description :=
      if firstChild.data.kind == "html" then exText firstChild else ""
    let dn ← pyKey vertical.data.display_name
    let exerciseTitle :=
      match parentTitle with
      | some pt => pt ++ (" " ++ dn)
      | none => dn
    let sid ← pyKey vertical.data.url_name
    let qs ← collectProblemQuestions cs
    let mFinal := if qs.length < 5 then qs.length else 5
    pure (some (TNode.mk
      { kind := "exercise", title := exerciseTitle, author := some "Edraak",
        source_id := some sid, description := description,
        m := some mFinal, randomize := some false, questions := qs } none))

/-- `transform_video_vertical(vertical, parent_title=None)`: one video node
(exactly one video child is required) plus the vertical's downloadable
resources.  `video.get('youtube_id') or video.get('path')` keeps Python's
falsy-`or` semantics. -/
def transformVideoVertical (exText : CNode → String) (vertical : CNode)
    (parentTitle : Option String) :
    Except String (Option TNode × List Resource) := do
  match vertical.children with
  | none => pure (none, [])
  | some cs => do
    let firstChild ← pyHead cs
    let description :=
      if firstChild.data.kind == "html" then exText firstChild else ""
    let dn ← pyKey vertical.data.display_name
    let videoTitle :=
      match parentTitle with
      | some pt => pt ++ (" " ++ dn)
      | none => dn
    let videos := cs.filter (fun c => c.data.kind == "video")
    let video ← (match videos with
      | [v] => Except.ok v
      | _ => Except.error "AssertionError: multiple videos found")
    let sourceId : Option String :=
      match video.data.youtube_id with
      | some y => if y == "" then video.data.path else some y
      | none => video.data.path
    let fileDict ←
      if video.data.youtube_id.isSome then
        Except.ok ({ file_type := "video",
                     youtube_id := video.data.youtube_id,
                     high_resolution := some false } : TFile)
      else if video.data.path.isSome then
        Except.ok ({ file_type := "video", path := video.data.path,
                     ffmpeg_crf := some 24 } : TFile)
      else
        Except.error "UnboundLocalError: local variable file_dict referenced before assignment"
    let htmls := cs.filter (fun c => c.data.kind == "html")
    let resources := htmls.foldl (fun acc h =>
      acc ++ (match h.data.downloadable_resources with
        | some rs => rs
        | none => [])) []
    pure (some (TNode.mk
      { kind := "video", title := videoTitle, author := some "Edraak",
        source_id := sourceId, description := description,
        files := [fileDict] } none), resources)

/-- `transform_html_vertical(vertical, parent_title=None)`: emit document
nodes for PDF resources and pool other resources, or package the html
content as an html5 node.  The source's `return` statement sits inside the
`for html in htmls` loop, so only the first html child is processed — and
with no html children the function returns `None`, which the caller's tuple
unpacking turns into a `TypeError`. -/
def transformHtmlVertical (mkZipHtml : CNode → String) (vertical : CNode)
    (_parentTitle : Option String) :
    Except String (List TNode × List Resource) := do
  match vertical.children with
  | none => pure ([], [])
  | some cs => do
    if !(cs.all (fun ch => ch.data.kind == "html")) then
      Except.error "AssertionError: non htmls found"
    else
      let htmls := cs.filter (fun ch => ch.data.kind == "html")
      match htmls with
      | [] =>
        Except.error "TypeError: cannot unpack non-iterable NoneType object"
      | html :: _ =>
        if (match html.data.downloadable_resources with
            | some rs => !rs.isEmpty
            | none => false) then
          let rs := html.data.downloadable_resources.getD []
          let pair := rs.foldl
            (fun (acc : List TNode × List Resource) resource =>
              if resource.ext == "pdf" then
                (acc.1 ++ [TNode.mk
                  { kind := "document", title := resource.title,
                    description := "", source_id := some resource.relhref,
                    files := [{ file_type := "document",
                                path := some resource.relhref }] } none], acc.2)
              else (acc.1, acc.2 ++ [resource])) ([], [])
          pure pair
        else do
          let dn ← pyKey vertical.data.display_name
          let sid ← pyKey html.data.url_name
          pure ([TNode.mk
            { kind := "html5", title := dn,
              description := html.data.description.getD "",
              source_id := some sid,
              files := [{ file_type := "html5",
                          path := some (mkZipHtml html) }] } none], [])

/-- The vertical-dispatch loop inside `transform_tree`: classify each
vertical and map it, calling the three transformers *without* a parent
title, exactly as the source does.  A `None` classification would make the
source's `'skipping ' + vertical_type` diagnostic raise a `TypeError`. -/
def transformVerticals (exText : CNode → String) (mkZipHtml : CNode → String) :
    List CNode → Except String (List TNode × List Resource)
  | [] => Except.ok ([], [])
  | vertical :: rest => do
    let vt ← guessVerticalType vertical
    let (nodes, res) ←
      if vt == some "knowledge_check_vertical" || vt == some "test_vertical" then do
        let eOpt ← transformVerticalToExercise exText vertical none
        pure (match eOpt with
          | some e => ([e], ([] : List Resource))
          | none => ([], []))
      else if vt == some "video_vertical" then do
        let (vOpt, rs) ← transformVideoVertical exText vertical none
        pure ((match vOpt with
          | some v => [v]
          | none => []), rs)
      else if vt == some "html_vertical" then
        transformHtmlVertical mkZipHtml vertical none
      else
        match vt with
        | some _ => pure ([], [])
        | none =>
          Except.error "TypeError: can only concatenate str (not NoneType) to str"
    let (restNodes, restRes) ← transformVerticals exText mkZipHtml rest
    pure (nodes ++ restNodes, res ++ restRes)

/-- The sequential loop inside `transform_tree`: skip empty sequentials,
otherwise build a topic node holding the mapped verticals, and pool all
downloadable resources for the chapter. -/
def transformSequentials (exText : CNode → String) (mkZipHtml : CNode → String) :
    List CNode → Except String (List TNode × List Resource)
  | [] => Except.ok ([], [])
  | seq :: rest => do
    let scs ← pyKey seq.children
    if scs.isEmpty then transformSequentials exText mkZipHtml rest
    else do
      let stitle ← pyKey seq.data.display_name
      let ssid ← pyKey seq.data.url_name
      let (verts, vertRes) ← transformVerticals exText mkZipHtml scs
      let seqNode := TNode.mk
        { kind := "topic", title := stitle, source_id := some ssid,
          description := seq.data.description.getD "" } (some verts)
      let (restNodes, restRes) ← transformSequentials exText mkZipHtml rest
      pure (seqNode :: restNodes, vertRes ++ restRes)

/-- The chapter loop inside `transform_tree`: one topic per chapter; when
the chapter pooled downloadable resources, one synthetic
`Downloadable Resources` html5 bundle node is appended to its children. -/
def transformChapters (exText : CNode → String) (mkZipHtml : CNode → String)
    (mkZipRes : String → String) :
    List CNode → Except String (List TNode)
  | [] => Except.ok []
  | chapter :: rest => do
    let ctitle ← pyKey chapter.data.display_name
    let cid ← pyKey chapter.data.url_name
    let seqs ← pyKey chapter.children
    let (seqNodes, chapterResources) ← transformSequentials exText mkZipHtml seqs
    let chapterChildren :=
      if !chapterResources.isEmpty then
        seqNodes ++ [TNode.mk
          { kind := "html5", title := "Downloadable Resources",
            description := "Contains various documents and resources you can download and use on your computer",
            source_id := some (cid ++ "-downloadable-resources"),
            files := [{ file_type := "html5",
                        path := some (mkZipRes (cid ++ "-downloadable-resources")) }] }
          none]
      else seqNodes
    let restNodes ← transformChapters exText mkZipHtml mkZipRes rest
    pure (TNode.mk
      { kind := "topic", title := ctitle, source_id := some cid,
        description := "" } (some chapterChildren) :: restNodes)

/-- `flatten_transformed_tree(course_dict)`: replace any child that has
exactly one grandchild with a (stripped-title) fuzzy similarity of at least
`FUZZY_MATCH_THRESHOLD` by that grandchild *as-is*; all other children are
flattened recursively. -/
def flattenTransformedTree : Nat → TNode → TNode
  | 0, t => t
  | fuel + 1, t =>
    match t.children with
    | none => t
    | some cs =>
      TNode.mk t.data (some (cs.map (fun child =>
        match child.children with
        | some [g] =>
          if FUZZY_MATCH_THRESHOLD ≤
              fuzzScore (pyStrip child.data.title) (pyStrip g.data.title)
          then g
          else flattenTransformedTree fuel child
        | _ => flattenTransformedTree fuel child)))
termination_by structural fuel _ => fuel

/-- `transform_tree(clean_tree, coursedir)`: build the course topic with its
thumbnail fallback, map every chapter, and flatten the result. -/
def transformTree (exText : CNode → String) (fsExists : String → Bool)
    (mkZipHtml : CNode → String) (mkZipRes : String → String)
    (flattenFuel : Nat) (cleanTree : CNode) (coursedir : String) :
    Except String TNode := do
  let courseId ← pyKey cleanTree.data.course
  let courseTitle ← pyKey cleanTree.data.display_name
  let ci ← pyKey cleanTree.data.course_image
  let thumb0 := pathJoin (pathJoin coursedir "static") ci
  let courseThumbnail :=
    if fsExists thumb0 then thumb0
    else pathJoin (pathJoin coursedir "static") (strReplace ci "_" " ")
  let chapters ← pyKey cleanTree.children
  let chapterNodes ← transformChapters exText mkZipHtml mkZipRes chapters
  let courseDict := TNode.mk
    { kind := "topic", title := courseTitle, source_id := some courseId,
      description := "", thumbnail := some courseThumbnail }
    (some chapterNodes)
  pure (flattenTransformedTree flattenFuel courseDict)

/-! ## Observation helpers and concrete inputs used by the theorems -/

/-- Title of the first child of an output node (used to tell trees apart
without a decidable equality on the nested tree type). -/
def headTitle (t : TNode) : String :=
  match t.children with
  | some (c :: _) => c.data.title
  | _ => ""

/-- Navigate an output tree along a path of child indices. -/
def tAt : TNode → List Nat → Option TNode
  | t, [] => some t
  | t, i :: rest =>
    match t.childList.get? i with
    | some c => tAt c rest
    | none => none

/-- Placeholder course node (default for projections out of `Except`). -/
def defaultCNode : CNode := CNode.mk { kind := "" } none

/-- Placeholder output node. -/
def defaultTNode : TNode := TNode.mk { kind := "" } none

/-- Placeholder resolved node. -/
def defaultRNode : RNode := RNode.mk [] none

/-- A vertical whose children are `[{kind: video}]`. -/
def c1VideoVert : CNode :=
  CNode.mk { kind := "vertical" } (some [CNode.mk { kind := "video" } none])

/-- A vertical whose children are `[{kind: html}, {kind: html}]`. -/
def c1HtmlVert : CNode :=
  CNode.mk { kind := "vertical" }
    (some [CNode.mk { kind := "html" } none, CNode.mk { kind := "html" } none])

/-- A vertical whose title contains the configured knowledge-check phrase
(children deliberately video-kind to show the title wins). -/
def c1KnowledgeVert : CNode :=
  CNode.mk { kind := "vertical",
             display_name := some "التحقق من المعرفة 1" }
    (some [CNode.mk { kind := "video" } none])

/-- A vertical with a discussion-kind child. -/
def c1DiscussionVert : CNode :=
  CNode.mk { kind := "vertical", display_name := some "Week 1" }
    (some [CNode.mk { kind := "discussion" } none])

/-- A choicegroup with one wrong and one right choice. -/
def exChoices : List Choice :=
  [{ correct := some "false", text := "A1" }, { correct := some "true", text := "A2" }]

/-- A problem with three single-select questions. -/
def c2Problem3 : CNode := CNode.mk
  { kind := "problem", url_name := some "p3q",
    pdocs := [[PElem.p "Q1", PElem.mcq (some exChoices),
               PElem.p "Q2", PElem.mcq (some exChoices),
               PElem.p "Q3", PElem.mcq (some exChoices)]] } (some [])

/-- A problem with eight single-select questions. -/
def c2Problem8 : CNode := CNode.mk
  { kind := "problem", url_name := some "p8q",
    pdocs := [[PElem.p "Q1", PElem.mcq (some exChoices),
               PElem.p "Q2", PElem.mcq (some exChoices),
               PElem.p "Q3", PElem.mcq (some exChoices),
               PElem.p "Q4", PElem.mcq (some exChoices),
               PElem.p "Q5", PElem.mcq (some exChoices),
               PElem.p "Q6", PElem.mcq (some exChoices),
               PElem.p "Q7", PElem.mcq (some exChoices),
               PElem.p "Q8", PElem.mcq (some exChoices)]] } (some [])

/-- A test vertical aggregating three questions. -/
def c2Vert3 : CNode := CNode.mk
  { kind := "vertical", url_name := some "v3", display_name := some "Quiz A" }
  (some [c2Problem3])

/-- A test vertical aggregating eight questions. -/
def c2Vert8 : CNode := CNode.mk
  { kind := "vertical", url_name := some "v8", display_name := some "Quiz B" }
  (some [c2Problem8])

/-- The exercise produced from `c2Vert3`. -/
def c2Exercise3 : TNode :=
  ((transformVerticalToExercise (fun _ => "") c2Vert3 none).toOption.getD
    none).getD defaultTNode

/-- The exercise produced from `c2Vert8`. -/
def c2Exercise8 : TNode :=
  ((transformVerticalToExercise (fun _ => "") c2Vert8 none).toOption.getD
    none).getD defaultTNode

/-- A transformed leaf for the flatten counterexample. -/
def c3Leaf : TNode := TNode.mk { kind := "video", title := "Leaf" } none

/-- Innermost wrapper of the similar-titled chain. -/
def c3NodeC : TNode :=
  TNode.mk { kind := "topic", title := "Unit Introduction C" } (some [c3Leaf])

/-- Middle wrapper of the similar-titled chain. -/
def c3NodeB : TNode :=
  TNode.mk { kind := "topic", title := "Unit Introduction B" } (some [c3NodeC])

/-- Outermost wrapper of the similar-titled chain. -/
def c3NodeA : TNode :=
  TNode.mk { kind := "topic", title := "Unit Introduction A" } (some [c3NodeB])

/-- A transformed course holding a three-deep chain of wrappers whose
adjacent titles are 95-similar (each pair differs in one character). -/
def c3Root : TNode :=
  TNode.mk { kind := "topic", title := "Course" } (some [c3NodeA])

/-- The filesystem of a course whose body file carries a wiki child. -/
def c4Fs : FS :=
  { xml := fun ko name =>
      if ko = some "course" ∧ name = "course" then
        some ⟨[{ name := "course", attrs := [],
                 childEls := [{ name := "wiki", attrs := [("slug", "w1")] }] }]⟩
      else none,
    raw := fun _ _ => none }

/-- A sequential with one wiki child and one (already processed) video
child, fed to the Pruner. -/
def c4Seq : CNode :=
  CNode.mk { kind := "sequential", display_name := some "S" }
    (some [CNode.mk { kind := "wiki", slug := some "w" } none,
           CNode.mk { kind := "video", url_name := some "vid1",
                      vdoc := [{ name := "video",
                                 attrs := [("youtube_id_1_0", "abc")] }] }
             (some [])])

/-- The Pruner's output on `c4Seq`. -/
def c4Cleaned : CNode :=
  (cleanSubtree (fun _ => false) (fun _ => "") "cd" 5 c4Seq).toOption.getD
    defaultCNode

/-- The video vertical of the example course (already video-processed). -/
def c5VideoVert : CNode := CNode.mk
  { kind := "vertical", url_name := some "vv1", display_name := some "Video V" }
  (some [CNode.mk { kind := "video", url_name := some "vid5",
                    youtube_id := some "YT5" } (some [])])

/-- The test vertical of the example course. -/
def c5TestVert : CNode := CNode.mk
  { kind := "vertical", url_name := some "v1",
    display_name := some "Vertical V" } (some [c2Problem3])

/-- The sequential of the example course, titled differently from its
verticals. -/
def c5Seq : CNode := CNode.mk
  { kind := "sequential", url_name := some "seq1",
    display_name := some "Sequential S" }
  (some [c5TestVert, c5VideoVert])

/-- The chapter of the example course. -/
def c5Chapter : CNode := CNode.mk
  { kind := "chapter", url_name := some "ch1",
    display_name := some "Chapter One" } (some [c5Seq])

/-- A cleaned example course with one chapter, one sequential, one test
vertical and one video vertical. -/
def c5Course : CNode := CNode.mk
  { kind := "course", course := some "c1", display_name := some "My Course",
    course_image := some "img.png" } (some [c5Chapter])

/-- The transformed example course. -/
def c5Transformed : TNode :=
  (transformTree (fun _ => "") (fun _ => true) (fun _ => "content.zip")
    (fun s => s ++ ".zip") 9 c5Course "cd").toOption.getD defaultTNode

/-- The exercise emitted for the test vertical of `c5Seq`. -/
def c5Exercise : TNode :=
  ((transformVerticalToExercise (fun _ => "") c5TestVert
    none).toOption.getD none).getD defaultTNode

/-- The filesystem of a small course with a split course-root definition:
the body file `course/course.xml` (one chapter child) and the flat
`course.xml` whose attributes override on collision. -/
def c6Fs : FS :=
  { xml := fun ko name =>
      if ko = some "course" ∧ name = "course" then
        some ⟨[{ name := "course", attrs := [("display_name", "My Course")],
                 childEls := [{ name := "chapter",
                                attrs := [("url_name", "ch1")] }] }]⟩
      else if ko = none ∧ name = "course" then
        some ⟨[{ name := "course",
                 attrs := [("org", "Edraak"), ("course", "c101"),
                           ("display_name", "Override")], childEls := [] }]⟩
      else if ko = some "chapter" ∧ name = "ch1" then
        some ⟨[{ name := "chapter", attrs := [("display_name", "Ch")],
                 childEls := [] }]⟩
      else none,
    raw := fun _ _ => none }

/-- The body-file resolution of `c6Fs`. -/
def c6Body : RNode :=
  (parseXmlFileRefusive c6Fs 3 (some "course") "course").toOption.getD
    defaultRNode

/-- The flat-file resolution of `c6Fs`. -/
def c6Flat : RNode :=
  (parseXmlFileRefusive c6Fs 3 none "course").toOption.getD defaultRNode

/-- The merged course root of `c6Fs`. -/
def c6Res : RNode :=
  (extractCourseTree c6Fs 3).toOption.getD defaultRNode

/-- A video whose content has an explicit youtube-profile encoding. -/
def c7Video : CNode := CNode.mk
  { kind := "video", url_name := some "vid7",
    vdoc := [{ name := "video", attrs := [("display_name", "d")] },
             { name := "encoded_video",
               attrs := [("profile", "youtube"), ("url", "YTID")] }] }
  (some [])

/-- A video whose content matches none of the three rules. -/
def c7BadVideo : CNode := CNode.mk
  { kind := "video", url_name := some "vid7b",
    vdoc := [{ name := "video", attrs := [("display_name", "d")] }] }
  (some [])

/-- The element sequence of the hint counterexample: the first response is
followed by another prompt, and the only solution element sits after the
second response. -/
def c8Els : List PElem :=
  [PElem.p "Q1", PElem.mcq (some exChoices), PElem.p "Q2",
   PElem.mcq (some exChoices), PElem.solution "S2"]

/-- The problem of the hint counterexample. -/
def c8Problem : CNode := CNode.mk
  { kind := "problem", url_name := some "p2", pdocs := [c8Els] } (some [])

/-- Placeholder question record. -/
def defaultQuestion : Question :=
  { question_type := "", id := "", question := "" }

/-- The first single-select question of `c8Els` (document position 1,
family index 0). -/
def c8Q1 : Question :=
  (mkMcqQuestion "p2" c8Els 0 1 (some exChoices)).toOption.getD defaultQuestion

/-- The parse of `c8Problem`. -/
def c8Parsed : CNode :=
  (parseQuestionsFromProblem c8Problem).toOption.getD defaultCNode

/-- An html item whose only resource link points at an unknown host. -/
def c9UnknownHost : CNode := CNode.mk
  { kind := "html", url_name := some "h1",
    links := [{ href := some "https://example.com/doc.pdf", text := "Doc",
                raw := "<a href=x>Doc</a>" }] } (some [])

/-- An html item whose static link needs the underscore-to-space fallback
and is still missing on disk. -/
def c9MissingAsset : CNode := CNode.mk
  { kind := "html", url_name := some "h2",
    links := [{ href := some "/static/My_File.pdf", text := "Doc",
                raw := "<a href=y>Doc</a>" }] } (some [])

/-- The element sequence of a problem holding one single-select and one
multi-select response. -/
def c10Els : List PElem :=
  [PElem.p "Q1", PElem.mcq (some exChoices), PElem.p "Q2",
   PElem.cresp (some exChoices)]

/-- A problem holding one single-select and one multi-select response. -/
def c10Problem : CNode := CNode.mk
  { kind := "problem", url_name := some "p10", pdocs := [c10Els] } (some [])

/-- The parse of `c10Problem`. -/
def c10Parsed : CNode :=
  (parseQuestionsFromProblem c10Problem).toOption.getD defaultCNode

/-! # Supporting lemmas -/

theorem dictLookup_nil (k : String) : dictLookup [] k = none := rfl

theorem dictLookup_cons (p : String × String) (d : List (String × String))
    (k : String) :
    dictLookup (p :: d) k = if p.1 = k then some p.2 else dictLookup d k := by
  simp only [dictLookup, List.find?]
  by_cases h : p.1 = k
  · have hb : (p.1 == k) = true := by simp [beq_iff_eq, h]
    simp [hb, h]
  · have hb : (p.1 == k) = false := by simp [beq_iff_eq, h]
    simp [hb, h]

theorem dictLookup_eq_none_of_not_mem {d : List (String × String)} {k : String}
    (h : k ∉ d.map (fun p => p.1)) : dictLookup d k = none := by
  induction d with
  | nil => rfl
  | cons p rest ih =>
    simp only [List.map_cons, List.mem_cons] at h
    push_neg at h
    rw [dictLookup_cons, if_neg (fun hp => h.1 hp.symm)]
    exact ih h.2

theorem dictLookup_dictSet (d : List (String × String)) (k v q : String) :
    dictLookup (dictSet d k v) q = if q = k then some v else dictLookup d q := by
  induction d with
  | nil =>
    simp only [dictSet, dictLookup_cons, dictLookup_nil]
    by_cases h : q = k
    · simp [h]
    · rw [if_neg (fun hh : k = q => h hh.symm), if_neg h]
  | cons p rest ih =>
    simp only [dictSet]
    by_cases hp : p.1 = k
    · by_cases hq : q = k
      · subst hq
        simp [hp, dictLookup_cons]
      · simp [hp, dictLookup_cons, hq, Ne.symm hq]
    · by_cases hpq : p.1 = q
      · have hq : ¬(q = k) := fun hh => hp (hpq.trans hh)
        simp [hp, dictLookup_cons, hpq, hq]
      · simp [hp, dictLookup_cons, hpq, ih]

theorem keys_dictSet (d : List (String × String)) (k v : String) :
    (dictSet d k v).map (fun p => p.1) =
      if k ∈ d.map (fun p => p.1) then d.map (fun p => p.1)
      else d.map (fun p => p.1) ++ [k] := by
  induction d with
  | nil => simp [dictSet]
  | cons p rest ih =>
    simp only [dictSet]
    by_cases hp : p.1 = k
    · simp [hp]
    · simp only [hp, if_false, List.map_cons, ih]
      by_cases hk : k ∈ rest.map (fun p => p.1)
      · rw [if_pos hk, if_pos (by simp [hk])]
      · rw [if_neg hk,
          if_neg (by
            simp only [List.mem_cons]
            push_neg
            exact ⟨fun hh => hp hh.symm, hk⟩)]
        simp

theorem keysNodup_dictSet {d : List (String × String)} (k v : String)
    (h : keysNodup d) : keysNodup (dictSet d k v) := by
  unfold keysNodup at *
  rw [keys_dictSet]
  by_cases hk : k ∈ d.map (fun p => p.1)
  · simpa [hk] using h
  · simp only [hk, if_false]
    exact List.Nodup.append h (List.nodup_singleton k)
      (by simpa [List.disjoint_singleton] using hk)

theorem keysNodup_dictUpdate {d : List (String × String)}
    (o : List (String × String)) (h : keysNodup d) :
    keysNodup (dictUpdate d o) := by
  induction o generalizing d with
  | nil => exact h
  | cons p rest ih => exact ih (keysNodup_dictSet p.1 p.2 h)

/-- The fundamental law of `dict.update`: a lookup in `d.update(o)` prefers
`o`'s binding and falls back to `d`'s.  (`o` is a dict, hence has no
duplicate keys.) -/
theorem dictLookup_dictUpdate (d o : List (String × String))
    (ho : keysNodup o) (q : String) :
    dictLookup (dictUpdate d o) q = optOr (dictLookup o q) (dictLookup d q) := by
  induction o generalizing d with
  | nil => simp [dictUpdate, dictLookup_nil, optOr]
  | cons p rest ih =>
    have ho2 : (p.1 :: rest.map (fun x => x.1)).Nodup := by
      simpa [keysNodup] using ho
    have ho' : keysNodup rest := ho2.of_cons
    have hnot : p.1 ∉ rest.map (fun x => x.1) := (List.nodup_cons.mp ho2).1
    show dictLookup (dictUpdate (dictSet d p.1 p.2) rest) q = _
    rw [ih (dictSet d p.1 p.2) ho', dictLookup_dictSet, dictLookup_cons]
    by_cases hq : q = p.1
    · subst hq
      rw [dictLookup_eq_none_of_not_mem hnot]
      simp [optOr]
    · rw [if_neg (fun hh : p.1 = q => hq hh.symm), if_neg hq]

/-- Inversion of a successful `Except` bind. -/
theorem exceptBind_ok_iff {α β : Type} (x : Except String α)
    (f : α → Except String β) (b : β) :
    (x >>= f = Except.ok b) ↔ ∃ a, x = Except.ok a ∧ f a = Except.ok b := by
  cases x with
  | error e => simp [Bind.bind, Except.bind]
  | ok a => simp [Bind.bind, Except.bind]

theorem exceptPure_eq_ok {α : Type} (a : α) :
    (pure a : Except String α) = Except.ok a := rfl

theorem pyKey_ok_iff {α : Type} (o : Option α) (a : α) :
    pyKey o = Except.ok a ↔ o = some a := by
  cases o <;> simp [pyKey]

theorem pyAttr_ok_iff {α : Type} (o : Option α) (a : α) :
    pyAttr o = Except.ok a ↔ o = some a := by
  cases o <;> simp [pyAttr]

theorem pyHead_ok_iff {α : Type} (l : List α) (a : α) :
    pyHead l = Except.ok a ↔ ∃ t, l = a :: t := by
  cases l with
  | nil => simp [pyHead]
  | cons x xs =>
    simp only [pyHead, Except.ok.injEq]
    constructor
    · intro h
      exact ⟨xs, by rw [h]⟩
    · rintro ⟨t, ht⟩
      cases ht
      rfl

/-! # Claim theorems -/

/-- C1.  For every vertical (with a `children` entry), the classifier
returns exactly one role of the closed set
{learning-objectives, knowledge-check, discussion, video, test, html,
unrecognized}, decided in the priority order of the source: a
learning-objectives title phrase wins first, then a knowledge-check title
phrase, then a discussion-kind child, then a video-kind child, then a
problem-kind child without a video-kind child, then all children being
html-kind; a vertical with children `[{kind: video}]` is classified
`video_vertical`, one with `[{kind: html}, {kind: html}]` is classified
`html_vertical`, and one whose title contains a knowledge-check phrase is
classified `knowledge_check_vertical` regardless of its children. -/
theorem claim1_vertical_classifier :
    (∀ (v : CNode) (cs : List CNode), v.children = some cs →
      ∃ r, guessVerticalType v = Except.ok r ∧
        (r = some "learning_objectives_vertical" ∨
         r = some "knowledge_check_vertical" ∨
         r = some "discussion_vertical" ∨
         r = some "video_vertical" ∨
         r = some "test_vertical" ∨
         r = some "html_vertical" ∨
         r = none))
    ∧ (∀ v : CNode,
        titleMatchesAny v.data.display_name LEARNING_OBJECTIVES_STRINGS = true →
        guessVerticalType v = Except.ok (some "learning_objectives_vertical"))
    ∧ (∀ v : CNode,
        titleMatchesAny v.data.display_name LEARNING_OBJECTIVES_STRINGS = false →
        titleMatchesAny v.data.display_name KNOWLEDGE_CHECK_STRINGS = true →
        guessVerticalType v = Except.ok (some "knowledge_check_vertical"))
    ∧ (∀ (v : CNode) (cs : List CNode),
        titleMatchesAny v.data.display_name LEARNING_OBJECTIVES_STRINGS = false →
        titleMatchesAny v.data.display_name KNOWLEDGE_CHECK_STRINGS = false →
        v.children = some cs →
        (cs.map (fun c => c.data.kind)).contains "discussion" = true →
        guessVerticalType v = Except.ok (some "discussion_vertical"))
    ∧ (∀ (v : CNode) (cs : List CNode),
        titleMatchesAny v.data.display_name LEARNING_OBJECTIVES_STRINGS = false →
        titleMatchesAny v.data.display_name KNOWLEDGE_CHECK_STRINGS = false →
        v.children = some cs →
        (cs.map (fun c => c.data.kind)).contains "discussion" = false →
        (cs.map (fun c => c.data.kind)).contains "video" = true →
        guessVerticalType v = Except.ok (some "video_vertical"))
    ∧ (∀ (v : CNode) (cs : List CNode),
        titleMatchesAny v.data.display_name LEARNING_OBJECTIVES_STRINGS = false →
        titleMatchesAny v.data.display_name KNOWLEDGE_CHECK_STRINGS = false →
        v.children = some cs →
        (cs.map (fun c => c.data.kind)).contains "discussion" = false →
        (cs.map (fun c => c.data.kind)).contains "video" = false →
        (cs.map (fun c => c.data.kind)).contains "problem" = true →
        guessVerticalType v = Except.ok (some "test_vertical"))
    ∧ (∀ (v : CNode) (cs : List CNode),
        titleMatchesAny v.data.display_name LEARNING_OBJECTIVES_STRINGS = false →
        titleMatchesAny v.data.display_name KNOWLEDGE_CHECK_STRINGS = false →
        v.children = some cs →
        (cs.map (fun c => c.data.kind)).contains "discussion" = false →
        (cs.map (fun c => c.data.kind)).contains "video" = false →
        (cs.map (fun c => c.data.kind)).contains "problem" = false →
        ((!(cs.map (fun c => c.data.kind)).isEmpty) &&
          (cs.map (fun c => c.data.kind)).all (fun k => k == "html")) = true →
        guessVerticalType v = Except.ok (some "html_vertical"))
    ∧ (∀ (v : CNode) (cs : List CNode),
        titleMatchesAny v.data.display_name LEARNING_OBJECTIVES_STRINGS = false →
        titleMatchesAny v.data.display_name KNOWLEDGE_CHECK_STRINGS = false →
        v.children = some cs →
        (cs.map (fun c => c.data.kind)).contains "discussion" = false →
        (cs.map (fun c => c.data.kind)).contains "video" = false →
        (cs.map (fun c => c.data.kind)).contains "problem" = false →
        ((!(cs.map (fun c => c.data.kind)).isEmpty) &&
          (cs.map (fun c => c.data.kind)).all (fun k => k == "html")) = false →
        guessVerticalType v = Except.ok none)
    ∧ guessVerticalType c1VideoVert = Except.ok (some "video_vertical")
    ∧ guessVerticalType c1HtmlVert = Except.ok (some "html_vertical")
    ∧ guessVerticalType c1KnowledgeVert =
        Except.ok (some "knowledge_check_vertical") := by
  refine ⟨?_, ?_, ?_, ?_, ?_, ?_, ?_, ?_, rfl, rfl, rfl⟩
  · intro v cs hcs
    simp only [guessVerticalType, hcs]
    split_ifs <;> exact ⟨_, rfl, by simp⟩
  · intro v h1
    simp [guessVerticalType, h1]
  · intro v h1 h2
    simp [guessVerticalType, h1, h2]
  · intro v cs h1 h2 hcs hd
    simp only [guessVerticalType, h1, h2, hcs, hd]
    simp
  · intro v cs h1 h2 hcs hd hv
    simp only [guessVerticalType, h1, h2, hcs, hd, hv]
    simp
  · intro v cs h1 h2 hcs hd hv hp
    simp only [guessVerticalType, h1, h2, hcs, hd, hv, hp]
    simp
  · intro v cs h1 h2 hcs hd hv hp hh
    simp only [guessVerticalType, h1, h2, hcs, hd, hv, hp, hh]
    simp
  · intro v cs h1 h2 hcs hd hv hp hh
    simp only [guessVerticalType, h1, h2, hcs, hd, hv, hp, hh]
    simp

/-- C1 witness: the discussion rule applied to a concrete vertical with a
discussion child. -/
theorem claim1_witness :
    guessVerticalType c1DiscussionVert = Except.ok (some "discussion_vertical") :=
  claim1_vertical_classifier.2.2.2.1 c1DiscussionVert
    [CNode.mk { kind := "discussion" } none] rfl rfl rfl rfl

set_option maxRecDepth 16000 in
/-- C3 counterexample: the flatten pass is not confluent.  On a course
holding a three-deep chain of single-child wrappers whose adjacent stripped
titles are 95-similar, the first pass replaces the outer wrapper by the
middle one without flattening it, and a second pass collapses one more
level, yielding a different tree. -/
theorem claim3_counterexample :
    flattenTransformedTree 9 (flattenTransformedTree 9 c3Root) ≠
      flattenTransformedTree 9 c3Root := by
  intro h
  have h2 := congrArg headTitle h
  rw [show headTitle (flattenTransformedTree 9 (flattenTransformedTree 9 c3Root)) =
        "Unit Introduction C" from rfl,
      show headTitle (flattenTransformedTree 9 c3Root) =
        "Unit Introduction B" from rfl] at h2
  exact absurd h2 (by decide)

/-- C3 (amended).  When a parent with exactly one child whose stripped
titles are at least 92-fuzzy-similar is replaced by that child, the
replacement subtree is inserted unchanged: the flatten pass does not recurse
into it (for any recursion budget). -/
theorem claim3_flatten_replaces_without_recursion :
    ∀ (fuel : Nat) (d : TData) (c g : TNode),
      c.children = some [g] →
      FUZZY_MATCH_THRESHOLD ≤
        fuzzScore (pyStrip c.data.title) (pyStrip g.data.title) →
      flattenTransformedTree (fuel + 1) (TNode.mk d (some [c])) =
        TNode.mk d (some [g]) := by
  intro fuel d c g hc hs
  cases c with
  | mk cd cc =>
    simp only [TNode.children] at hc
    subst hc
    simp only [TNode.data] at hs
    simp [flattenTransformedTree, TNode.children, TNode.data, hs]

set_option maxRecDepth 16000 in
/-- C3 witness: one flatten pass on a concrete wrapper pair replaces the
wrapper by its similarly-titled child, keeping the child's own subtree
untouched. -/
theorem claim3_witness :
    flattenTransformedTree 1
      (TNode.mk { kind := "topic", title := "Course" } (some [c3NodeB])) =
      TNode.mk { kind := "topic", title := "Course" } (some [c3NodeC]) :=
  claim3_flatten_replaces_without_recursion 0 _ c3NodeB c3NodeC rfl (by decide)

/-- C7.  Video enrichment uses exactly the first matching rule of three
tried in order — (a) an `encoded_video` element with the youtube profile
yields `youtube_id` from its `url`; else (b) a `source` element yields a
file `path` from its `src`; else (c) a truthy (present and non-empty)
`youtube_id_1_0` attribute on the root `video` element yields
`youtube_id` — and when none of the three rules matches (the attribute of
rule (c) being absent or empty), processing fails with the
unrecognized-video-format error, which `clean_subtree` propagates so the
whole cleaning run for that course aborts. -/
theorem claim7_video_rules :
    (∀ (v : CNode) (el : VElem) (url : String),
      v.data.vdoc.find? (fun e => e.name == "encoded_video" &&
        dictLookup e.attrs "profile" == some "youtube") = some el →
      dictLookup el.attrs "url" = some url →
      processVideo v =
        Except.ok (CNode.mk { v.data with youtube_id := some url } v.children))
    ∧ (∀ (v : CNode) (el : VElem) (src : String),
      v.data.vdoc.find? (fun e => e.name == "encoded_video" &&
        dictLookup e.attrs "profile" == some "youtube") = none →
      v.data.vdoc.find? (fun e => e.name == "source") = some el →
      dictLookup el.attrs "src" = some src →
      processVideo v =
        Except.ok (CNode.mk { v.data with path := some src } v.children))
    ∧ (∀ (v : CNode) (el : VElem) (yid : String),
      v.data.vdoc.find? (fun e => e.name == "encoded_video" &&
        dictLookup e.attrs "profile" == some "youtube") = none →
      v.data.vdoc.find? (fun e => e.name == "source") = none →
      v.data.vdoc.find? (fun e => e.name == "video") = some el →
      dictLookup el.attrs "youtube_id_1_0" = some yid →
      (yid == "") = false →
      processVideo v =
        Except.ok (CNode.mk { v.data with youtube_id := some yid } v.children))
    ∧ (∀ v : CNode,
      v.data.vdoc.find? (fun e => e.name == "encoded_video" &&
        dictLookup e.attrs "profile" == some "youtube") = none →
      v.data.vdoc.find? (fun e => e.name == "source") = none →
      v.data.vdoc.find? (fun e => e.name == "video") = none →
      processVideo v =
        Except.error "ValueError: Unrecognized video format encountered")
    ∧ (∀ (v : CNode) (el : VElem),
      v.data.vdoc.find? (fun e => e.name == "encoded_video" &&
        dictLookup e.attrs "profile" == some "youtube") = none →
      v.data.vdoc.find? (fun e => e.name == "source") = none →
      v.data.vdoc.find? (fun e => e.name == "video") = some el →
      dictLookup el.attrs "youtube_id_1_0" = none →
      processVideo v =
        Except.error "ValueError: Unrecognized video format encountered")
    ∧ (∀ (v : CNode) (el : VElem),
      v.data.vdoc.find? (fun e => e.name == "encoded_video" &&
        dictLookup e.attrs "profile" == some "youtube") = none →
      v.data.vdoc.find? (fun e => e.name == "source") = none →
      v.data.vdoc.find? (fun e => e.name == "video") = some el →
      dictLookup el.attrs "youtube_id_1_0" = some "" →
      processVideo v =
        Except.error "ValueError: Unrecognized video format encountered")
    ∧ (∀ (fsExists : String → Bool) (exText : CNode → String)
        (coursedir : String) (fuel : Nat) (n : CNode) (msg : String),
      n.data.kind = "video" →
      processVideo n = Except.error msg →
      cleanSubtree fsExists exText coursedir (fuel + 1) n =
        Except.error msg) := by
  refine ⟨?_, ?_, ?_, ?_, ?_, ?_, ?_⟩
  · intro v el url h1 h2
    simp [processVideo, h1, h2]
  · intro v el src h1 h2 h3
    simp [processVideo, h1, h2, h3]
  · intro v el yid h1 h2 h3 h4 h5
    simp [processVideo, h1, h2, h3, h4, h5]
  · intro v h1 h2 h3
    simp [processVideo, h1, h2, h3]
  · intro v el h1 h2 h3 h4
    simp [processVideo, h1, h2, h3, h4]
  · intro v el h1 h2 h3 h4
    simp [processVideo, h1, h2, h3, h4]
  · intro fsExists exText coursedir fuel n msg hk herr
    simp [cleanSubtree, enrichNode, hk, herr, Bind.bind, Except.bind]

/-- C7 witness: the first rule applied to a concrete video with a
youtube-profile encoding. -/
theorem claim7_witness :
    processVideo c7Video =
      Except.ok (CNode.mk { c7Video.data with youtube_id := some "YTID" }
        c7Video.children) :=
  claim7_video_rules.1 c7Video
    { name := "encoded_video", attrs := [("profile", "youtube"), ("url", "YTID")] }
    "YTID" rfl rfl

/-- C9.  At the failing input — an html item whose first (and only)
resource link points at an unknown host — the extractor logs the
unknown-href warning and then crashes with `UnboundLocalError` (the
`relhref` local was never assigned on that path) instead of continuing with
a best-effort result; the claim's other half behaves as specified: a static
link whose on-disk asset is missing even after the underscore-to-space
fallback yields a warning and a normal return. -/
theorem claim9_unknown_host_unbound_local :
    extractDownloadableResoucesFromHtmlItem (fun _ => false) c9UnknownHost "cd" =
      Except.error "UnboundLocalError: local variable relhref referenced before assignment"
    ∧ extractDownloadableResoucesFromHtmlItem (fun _ => false) c9MissingAsset "cd" =
      Except.ok ([{ relhref := "cd/static/My File.pdf", ext := "pdf",
                    filename := "My_File.pdf", title := "Doc",
                    link_html := "<a href=y>Doc</a>" }],
                 ["file not fount at relhref=cd/static/My File.pdf"]) :=
  ⟨rfl, rfl⟩

/-- C2.  Every exercise produced from a test or knowledge-check vertical
with `N` aggregated questions carries mastery threshold `m = min 5 N` (the
source initialises `m` to 5 and lowers it to the question count when fewer
than five were aggregated); concretely, an exercise aggregated from three
questions gets `m = 3` and one from eight questions gets `m = 5`. -/
theorem claim2_mastery_threshold :
    (∀ (exText : CNode → String) (vertical : CNode) (pt : Option String)
      (e : TNode),
      transformVerticalToExercise exText vertical pt = Except.ok (some e) →
      e.data.m = some (min 5 e.data.questions.length))
    ∧ transformVerticalToExercise (fun _ => "") c2Vert3 none =
        Except.ok (some c2Exercise3)
    ∧ c2Exercise3.data.questions.length = 3
    ∧ c2Exercise3.data.m = some 3
    ∧ transformVerticalToExercise (fun _ => "") c2Vert8 none =
        Except.ok (some c2Exercise8)
    ∧ c2Exercise8.data.questions.length = 8
    ∧ c2Exercise8.data.m = some 5 := by
  refine ⟨?_, rfl, rfl, rfl, rfl, rfl, rfl⟩
  intro exText vertical pt e h
  cases hcs : vertical.children with
  | none =>
    simp [transformVerticalToExercise, hcs, exceptPure_eq_ok] at h
  | some cs =>
    simp only [transformVerticalToExercise, hcs] at h
    rw [exceptBind_ok_iff] at h
    obtain ⟨fc, _hfc, h⟩ := h
    rw [exceptBind_ok_iff] at h
    obtain ⟨dn, _hdn, h⟩ := h
    rw [exceptBind_ok_iff] at h
    obtain ⟨sid, _hsid, h⟩ := h
    rw [exceptBind_ok_iff] at h
    obtain ⟨qs, _hqs, h⟩ := h
    simp only [exceptPure_eq_ok, Except.ok.injEq, Option.some.injEq] at h
    subst h
    simp only [TNode.data]
    rcases Nat.lt_or_ge qs.length 5 with hlt | hge
    · simp [hlt, Nat.min_eq_right (Nat.le_of_lt hlt)]
    · simp [Nat.not_lt.2 hge, Nat.min_eq_left hge]

/-- C2 witness: the general mastery law applied to the concrete
three-question exercise. -/
theorem claim2_witness :
    c2Exercise3.data.m = some (min 5 c2Exercise3.data.questions.length) :=
  claim2_mastery_threshold.1 (fun _ => "") c2Vert3 none c2Exercise3 rfl

set_option maxRecDepth 16000 in
/-- C5 counterexample: `transform_tree` maps the test vertical of the
example course to an exercise titled by the vertical's display name alone
and its video vertical to a video node titled the same way — neither title
is prefixed with the enclosing sequential's title. -/
theorem claim5_counterexample :
    transformTree (fun _ => "") (fun _ => true) (fun _ => "content.zip")
      (fun st => st ++ ".zip") 9 c5Course "cd" = Except.ok c5Transformed
    ∧ (tAt c5Transformed [0, 0, 0]).map TNode.title = some "Vertical V"
    ∧ (tAt c5Transformed [0, 0, 1]).map TNode.title = some "Video V"
    ∧ ¬("Vertical V" = "Sequential S" ++ (" " ++ "Vertical V"))
    ∧ ¬("Video V" = "Sequential S" ++ (" " ++ "Video V")) :=
  ⟨rfl, rfl, rfl, by decide, by decide⟩

/-- C5 (amended).  As invoked by `transform_tree` — with no parent title —
the exercise and video transformers emit nodes titled by the vertical's own
display name, with no parent qualification. -/
theorem claim5_titles_not_parent_qualified :
    (∀ (exText : CNode → String) (vertical : CNode) (e : TNode),
      transformVerticalToExercise exText vertical none = Except.ok (some e) →
      some e.data.title = vertical.data.display_name)
    ∧ (∀ (exText : CNode → String) (vertical : CNode) (v : TNode)
        (rs : List Resource),
      transformVideoVertical exText vertical none = Except.ok (some v, rs) →
      some v.data.title = vertical.data.display_name) := by
  constructor
  · intro exText vertical e h
    cases hcs : vertical.children with
    | none => simp [transformVerticalToExercise, hcs, exceptPure_eq_ok] at h
    | some cs =>
      simp only [transformVerticalToExercise, hcs] at h
      rw [exceptBind_ok_iff] at h
      obtain ⟨fc, _hfc, h⟩ := h
      rw [exceptBind_ok_iff] at h
      obtain ⟨dn, hdn, h⟩ := h
      rw [exceptBind_ok_iff] at h
      obtain ⟨sid, _hsid, h⟩ := h
      rw [exceptBind_ok_iff] at h
      obtain ⟨qs, _hqs, h⟩ := h
      simp only [exceptPure_eq_ok, Except.ok.injEq, Option.some.injEq] at h
      subst h
      rw [pyKey_ok_iff] at hdn
      simp [TNode.data, hdn]
  · intro exText vertical v rs h
    cases hcs : vertical.children with
    | none => simp [transformVideoVertical, hcs, exceptPure_eq_ok] at h
    | some cs =>
      simp only [transformVideoVertical, hcs] at h
      rw [exceptBind_ok_iff] at h
      obtain ⟨fc, _hfc, h⟩ := h
      rw [exceptBind_ok_iff] at h
      obtain ⟨dn, hdn, h⟩ := h
      rw [exceptBind_ok_iff] at h
      obtain ⟨video, _hvid, h⟩ := h
      split at h
      · rw [exceptBind_ok_iff] at h
        obtain ⟨fd, _hfd, h⟩ := h
        simp only [exceptPure_eq_ok, Except.ok.injEq, Prod.mk.injEq,
          Option.some.injEq] at h
        obtain ⟨hv, _hrs⟩ := h
        subst hv
        rw [pyKey_ok_iff] at hdn
        simp [TNode.data, hdn]
      · split at h
        · rw [exceptBind_ok_iff] at h
          obtain ⟨fd, _hfd, h⟩ := h
          simp only [exceptPure_eq_ok, Except.ok.injEq, Prod.mk.injEq,
            Option.some.injEq] at h
          obtain ⟨hv, _hrs⟩ := h
          subst hv
          rw [pyKey_ok_iff] at hdn
          simp [TNode.data, hdn]
        · simp at h

/-- C5 witness: the exercise emitted for the concrete test vertical is
titled by its display name. -/
theorem claim5_witness :
    some c5Exercise.data.title = c5TestVert.data.display_name :=
  claim5_titles_not_parent_qualified.1 (fun _ => "") c5TestVert c5Exercise rfl

/-- `process_video` rewrites a node without changing its `kind`. -/
theorem processVideo_kind (n m : CNode)
    (h : processVideo n = Except.ok m) : m.data.kind = n.data.kind := by
  simp only [processVideo] at h
  cases hA : n.data.vdoc.find? (fun e => e.name == "encoded_video" &&
      dictLookup e.attrs "profile" == some "youtube") with
  | some el =>
    simp only [hA] at h
    cases hU : dictLookup el.attrs "url" with
    | some url =>
      simp only [hU] at h
      cases h
      rfl
    | none => simp only [hU] at h; simp at h
  | none =>
    simp only [hA] at h
    cases hS : n.data.vdoc.find? (fun e => e.name == "source") with
    | some el =>
      simp only [hS] at h
      cases hU : dictLookup el.attrs "src" with
      | some src => simp only [hU] at h; cases h; rfl
      | none => simp only [hU] at h; simp at h
    | none =>
      simp only [hS] at h
      cases hV : n.data.vdoc.find? (fun e => e.name == "video") with
      | some el =>
        simp only [hV] at h
        cases hU : dictLookup el.attrs "youtube_id_1_0" with
        | some yid =>
          simp only [hU] at h
          by_cases hy : (yid == "") = true
          · rw [if_pos hy] at h
            simp at h
          · rw [if_neg hy] at h
            cases h
            rfl
        | none => simp only [hU] at h; simp at h
      | none => simp only [hV] at h; simp at h

/-- The enrichment step of `clean_subtree` never changes a node's `kind`. -/
theorem enrichNode_kind (fsE : String → Bool) (exT : CNode → String)
    (cd : String) (n m : CNode)
    (h : enrichNode fsE exT cd n = Except.ok m) : m.data.kind = n.data.kind := by
  simp only [enrichNode] at h
  split at h
  · exact processVideo_kind n m h
  · split at h
    · rw [exceptBind_ok_iff] at h
      obtain ⟨p, _hp, h⟩ := h
      obtain ⟨rs, ws⟩ := p
      simp only [exceptPure_eq_ok] at h
      split at h
      · cases h
        rfl
      · cases h
        rfl
    · simp only [exceptPure_eq_ok] at h
      cases h
      rfl

/-- `clean_subtree` never changes a node's `kind`. -/
theorem cleanSubtree_kind (fsE : String → Bool) (exT : CNode → String)
    (cd : String) : ∀ (fuel : Nat) (n n' : CNode),
    cleanSubtree fsE exT cd fuel n = Except.ok n' →
    n'.data.kind = n.data.kind := by
  intro fuel n n' h
  cases fuel with
  | zero => simp [cleanSubtree] at h
  | succ f =>
    simp only [cleanSubtree] at h
    rw [exceptBind_ok_iff] at h
    obtain ⟨n1, hn1, h⟩ := h
    have hk := enrichNode_kind fsE exT cd n n1 hn1
    cases hcs : n1.children with
    | some cs =>
      simp only [hcs] at h
      rw [exceptBind_ok_iff] at h
      obtain ⟨pr, _hpr, h⟩ := h
      obtain ⟨dOpt, newCs⟩ := pr
      simp only [exceptPure_eq_ok] at h
      cases h
      cases dOpt <;> simpa [CNode.data] using hk
    | none =>
      simp only [hcs] at h
      rw [exceptBind_ok_iff] at h
      obtain ⟨pr, hpr, h⟩ := h
      simp only [exceptPure_eq_ok] at hpr h
      cases hpr
      cases h
      simpa [CNode.data] using hk

/-- The child-filtering loop keeps no skip-listed child, as long as the
recursive cleaning call preserves kinds. -/
theorem cleanChildrenAux_no_skip
    (cleanFn : CNode → Except String CNode) (exT : CNode → String)
    (hkind : ∀ c r, cleanFn c = Except.ok r → r.data.kind = c.data.kind) :
    ∀ (cs : List CNode) (dOpt : Option String) (out : List CNode),
      cleanChildrenAux cleanFn exT cs = Except.ok (dOpt, out) →
      ∀ c ∈ out, SKIP_KINDS.contains c.data.kind = false := by
  intro cs
  induction cs with
  | nil =>
    intro dOpt out h c hc
    simp only [cleanChildrenAux] at h
    cases h
    simp at hc
  | cons child rest ih =>
    intro dOpt out h c hc
    simp only [cleanChildrenAux] at h
    by_cases hskip : SKIP_KINDS.contains child.data.kind = true
    · rw [if_pos hskip] at h
      exact ih dOpt out h c hc
    · rw [if_neg hskip] at h
      split at h
      · exact ih dOpt out h c hc
      · split at h
        · rw [exceptBind_ok_iff] at h
          obtain ⟨vt, _hvt, h⟩ := h
          split at h
          · simp at h
          · exact ih dOpt out h c hc
          · rw [exceptBind_ok_iff] at h
            obtain ⟨gcs, _hg, h⟩ := h
            rw [exceptBind_ok_iff] at h
            obtain ⟨g, _hgg, h⟩ := h
            cases hrec : cleanChildrenAux cleanFn exT rest with
            | error e => simp [hrec, Bind.bind, Except.bind] at h
            | ok pr =>
              obtain ⟨dR, csR⟩ := pr
              simp only [hrec, Bind.bind, Except.bind, exceptPure_eq_ok,
                Except.ok.injEq, Prod.mk.injEq] at h
              obtain ⟨_hd, hout⟩ := h
              subst hout
              exact ih dR csR hrec c hc
          · cases hc1 : cleanFn child with
            | error e => simp [hc1, Bind.bind, Except.bind] at h
            | ok c1 =>
              simp only [hc1, Bind.bind, Except.bind] at h
              cases hrec : cleanChildrenAux cleanFn exT rest with
              | error e => simp [hrec, Bind.bind, Except.bind] at h
              | ok pr =>
                obtain ⟨dR, csR⟩ := pr
                simp only [hrec, Bind.bind, Except.bind, exceptPure_eq_ok,
                  Except.ok.injEq, Prod.mk.injEq] at h
                obtain ⟨_hd, hout⟩ := h
                subst hout
                rcases List.mem_cons.mp hc with hceq | hcm
                · subst hceq
                  rw [hkind child c hc1]
                  simpa using hskip
                · exact ih dR csR hrec c hcm
        · cases hc1 : cleanFn child with
          | error e => simp [hc1, Bind.bind, Except.bind] at h
          | ok c1 =>
            simp only [hc1, Bind.bind, Except.bind] at h
            cases hrec : cleanChildrenAux cleanFn exT rest with
            | error e => simp [hrec, Bind.bind, Except.bind] at h
            | ok pr =>
              obtain ⟨dR, csR⟩ := pr
              simp only [hrec, Bind.bind, Except.bind, exceptPure_eq_ok,
                Except.ok.injEq, Prod.mk.injEq] at h
              obtain ⟨_hd, hout⟩ := h
              subst hout
              rcases List.mem_cons.mp hc with hceq | hcm
              · subst hceq
                rw [hkind child c hc1]
                simpa using hskip
              · exact ih dR csR hrec c hcm

/-- C4 counterexample: the Resolver does not exclude skip-listed kinds —
`parse_xml_file` on a course body holding a wiki child emits the wiki
reference, although wiki is in `SKIP_KINDS`. -/
theorem claim4_counterexample :
    parseXmlFile c4Fs (some "course") "course" =
      Except.ok ([("kind", "course"), ("id", "course")],
        [{ kind := "wiki", url_name := none, slug := some "w1", ext := none }])
    ∧ "wiki" ∈ SKIP_KINDS :=
  ⟨rfl, by decide⟩

/-- C4 (amended).  Skip-list filtering happens at the Pruner, not the
Resolver: whatever tree `clean_subtree` returns, none of a node's surviving
children has a kind in `SKIP_KINDS`. -/
theorem claim4_skip_kinds_filtered_by_pruner :
    ∀ (fsExists : String → Bool) (exText : CNode → String) (coursedir : String)
      (fuel : Nat) (n n' : CNode),
      cleanSubtree fsExists exText coursedir fuel n = Except.ok n' →
      ∀ c ∈ n'.childList, SKIP_KINDS.contains c.data.kind = false := by
  intro fsE exT cd fuel n n' h c hc
  cases fuel with
  | zero => simp [cleanSubtree] at h
  | succ f =>
    simp only [cleanSubtree] at h
    rw [exceptBind_ok_iff] at h
    obtain ⟨n1, _hn1, h⟩ := h
    cases hcs : n1.children with
    | some cs =>
      simp only [hcs] at h
      rw [exceptBind_ok_iff] at h
      obtain ⟨pr, hpr, h⟩ := h
      obtain ⟨dOpt, newCs⟩ := pr
      simp only [exceptPure_eq_ok] at h
      cases h
      simp only [CNode.childList, CNode.children, Option.getD] at hc
      exact cleanChildrenAux_no_skip _ exT
        (fun c2 r2 hr => cleanSubtree_kind fsE exT cd f c2 r2 hr)
        cs dOpt newCs hpr c hc
    | none =>
      simp only [hcs] at h
      rw [exceptBind_ok_iff] at h
      obtain ⟨pr, hpr, h⟩ := h
      simp only [exceptPure_eq_ok] at hpr h
      cases hpr
      cases h
      simp [CNode.childList, CNode.children] at hc

/-- C4 witness: cleaning a concrete sequential with a wiki child and a
video child keeps no skip-listed child. -/
theorem claim4_witness :
    cleanSubtree (fun _ => false) (fun _ => "") "cd" 5 c4Seq =
      Except.ok c4Cleaned
    ∧ ∀ c ∈ c4Cleaned.childList, SKIP_KINDS.contains c.data.kind = false := by
  have h : cleanSubtree (fun _ => false) (fun _ => "") "cd" 5 c4Seq =
      Except.ok c4Cleaned := rfl
  exact ⟨h, claim4_skip_kinds_filtered_by_pruner (fun _ => false) (fun _ => "")
    "cd" 5 c4Seq c4Cleaned h⟩

theorem optOr_none {α : Type} (a : Option α) : optOr a none = a := by
  cases a <;> rfl

/-- A successful `parse_xml_file` produces exactly the scalar fields
`{kind, id}` updated with the root element's attributes. -/
theorem parseXmlFile_fields (fs : FS) (kind : Option String) (name : String)
    (doc : XmlDoc) (root : XmlRoot) (fields : List (String × String))
    (refs : List ChildRef)
    (hdoc : fs.xml kind name = some doc) (hroot : doc.roots = [root])
    (hok : parseXmlFile fs kind name = Except.ok (fields, refs)) :
    fields = dictUpdate [("kind", root.name), ("id", name)] root.attrs := by
  simp only [parseXmlFile, hdoc, hroot, Bind.bind, Except.bind] at hok
  split at hok
  · simp at hok
  · simp only [exceptPure_eq_ok, Except.ok.injEq, Prod.mk.injEq] at hok
    exact hok.1.symm

/-- The scalar fields of a successfully parsed fragment have no duplicate
keys. -/
theorem parseXmlFile_keysNodup (fs : FS) (kind : Option String) (name : String)
    (fields : List (String × String)) (refs : List ChildRef)
    (h : parseXmlFile fs kind name = Except.ok (fields, refs)) :
    keysNodup fields := by
  simp only [parseXmlFile] at h
  cases hdoc : fs.xml kind name with
  | none => simp [hdoc, Bind.bind, Except.bind] at h
  | some doc =>
    simp only [hdoc, Bind.bind, Except.bind] at h
    cases hroots : doc.roots with
    | nil => simp [hroots] at h
    | cons root tl =>
      cases tl with
      | cons b tl2 => simp [hroots] at h
      | nil =>
        simp only [hroots] at h
        split at h
        · simp at h
        · simp only [exceptPure_eq_ok, Except.ok.injEq, Prod.mk.injEq] at h
          rw [← h.1]
          exact keysNodup_dictUpdate root.attrs (by simp [keysNodup])

/-- The scalar fields of a node resolved by `parse_xml_file_refusive` are
those of its `parse_xml_file` parse (and in particular have no duplicate
keys). -/
theorem parseXmlFileRefusive_keysNodup (fs : FS) :
    ∀ (fuel : Nat) (kind : Option String) (name : String) (r : RNode),
      parseXmlFileRefusive fs fuel kind name = Except.ok r →
      keysNodup r.fields := by
  intro fuel kind name r h
  cases fuel with
  | zero => simp [parseXmlFileRefusive] at h
  | succ f =>
    simp only [parseXmlFileRefusive] at h
    cases hp : parseXmlFile fs kind name with
    | error e => simp [hp, Bind.bind, Except.bind] at h
    | ok pr =>
      obtain ⟨fields, refs⟩ := pr
      simp only [hp, Bind.bind, Except.bind] at h
      split at h
      · simp at h
      · simp only [exceptPure_eq_ok, Except.ok.injEq] at h
        subst h
        exact parseXmlFile_keysNodup fs kind name fields refs hp

/-- C6.  Extracting a course tree merges the two loads of the same logical
course root: every top-level field of the result is the flat file's value
when the flat load binds the key and the body load's value otherwise, while
the `children` are taken unchanged from the recursive body-file resolution;
and for any fragment resolved by `parse_xml_file`, every key other than the
injected `kind`/`id` is looked up exactly as in the source root element's
attributes. -/
theorem claim6_course_root_merge :
    (∀ (fs : FS) (fuel : Nat) (body flat res : RNode),
      parseXmlFileRefusive fs fuel (some "course") "course" = Except.ok body →
      parseXmlFileRefusive fs fuel none "course" = Except.ok flat →
      extractCourseTree fs fuel = Except.ok res →
      (∀ k, dictLookup res.fields k =
        optOr (dictLookup flat.fields k) (dictLookup body.fields k))
      ∧ res.children = body.children)
    ∧ (∀ (fs : FS) (kind : Option String) (name : String) (doc : XmlDoc)
        (root : XmlRoot) (fields : List (String × String))
        (refs : List ChildRef),
      fs.xml kind name = some doc →
      doc.roots = [root] →
      keysNodup root.attrs →
      parseXmlFile fs kind name = Except.ok (fields, refs) →
      ∀ k, k ≠ "kind" → k ≠ "id" →
        dictLookup fields k = dictLookup root.attrs k) := by
  constructor
  · intro fs fuel body flat res hbody hflat hres
    simp only [extractCourseTree] at hres
    rw [exceptBind_ok_iff] at hres
    obtain ⟨body', hbody', hres⟩ := hres
    rw [exceptBind_ok_iff] at hres
    obtain ⟨flat', hflat', hres⟩ := hres
    rw [hbody] at hbody'
    rw [hflat] at hflat'
    simp only [Except.ok.injEq] at hbody' hflat'
    subst hbody'
    subst hflat'
    simp only [exceptPure_eq_ok, Except.ok.injEq] at hres
    subst hres
    refine ⟨?_, rfl⟩
    intro k
    exact dictLookup_dictUpdate body.fields flat.fields
      (parseXmlFileRefusive_keysNodup fs fuel none "course" flat hflat) k
  · intro fs kind name doc root fields refs hdoc hroot hattrs hok k hk1 hk2
    rw [parseXmlFile_fields fs kind name doc root fields refs hdoc hroot hok]
    rw [dictLookup_dictUpdate _ root.attrs hattrs k]
    rw [dictLookup_cons, dictLookup_cons, dictLookup_nil]
    rw [if_neg (fun hh => hk1 hh.symm), if_neg (fun hh => hk2 hh.symm)]
    exact optOr_none _

/-- C6 witness: on a concrete split-definition course, the merged root takes
`display_name` from the flat file (overriding the body file), gains the
flat-only `org` field, and keeps the body file's resolved children. -/
theorem claim6_witness :
    extractCourseTree c6Fs 3 = Except.ok c6Res
    ∧ dictLookup c6Res.fields "display_name" = some "Override"
    ∧ dictLookup c6Res.fields "org" = some "Edraak"
    ∧ c6Res.children = c6Body.children := by
  have h1 : parseXmlFileRefusive c6Fs 3 (some "course") "course" =
      Except.ok c6Body := rfl
  have h2 : parseXmlFileRefusive c6Fs 3 none "course" = Except.ok c6Flat := rfl
  have h3 : extractCourseTree c6Fs 3 = Except.ok c6Res := rfl
  obtain ⟨hl, hc⟩ :=
    claim6_course_root_merge.1 c6Fs 3 c6Body c6Flat c6Res h1 h2 h3
  refine ⟨h3, ?_, ?_, hc⟩
  · rw [hl "display_name"]
    rfl
  · rw [hl "org"]
    rfl

/-- C8 counterexample: in `c8Els` the first response element (document
position 1) is not immediately followed by a solution element (position 2
is a prompt paragraph), yet the first extracted question carries the later
solution's text as a hint rather than an empty hints list. -/
theorem claim8_counterexample :
    parseQuestionsFromProblem c8Problem = Except.ok c8Parsed
    ∧ c8Els[1]? = some (PElem.mcq (some exChoices))
    ∧ c8Els[2]? = some (PElem.p "Q2")
    ∧ ((c8Parsed.data.questions.getD []).map Question.hints)[0]? = some ["S2"]
    ∧ (["S2"] : List String) ≠ [] :=
  ⟨rfl, rfl, rfl, rfl, by decide⟩

/-- C8 (amended).  A question's hints come from the *next* solution element
anywhere after its response element in document order — adjacency is not
required: whenever the question builders succeed, the hints are exactly
`hintsForSolution` of `findNextSolution` at the response position; this is
empty when no solution element occurs later, and the blocklist-filtered
cleaned solution text otherwise. -/
theorem claim8_hints_use_next_solution :
    (∀ (url : String) (els : List PElem) (i pos : Nat)
      (cg : Option (List Choice)) (q : Question),
      mkMcqQuestion url els i pos cg = Except.ok q →
      q.hints = hintsForSolution (findNextSolution els pos))
    ∧ (∀ (url : String) (els : List PElem) (j pos : Nat)
      (cb : Option (List Choice)) (q : Question),
      mkCrespQuestion url els j pos cb = Except.ok q →
      q.hints = hintsForSolution (findNextSolution els pos))
    ∧ (∀ (els : List PElem) (pos : Nat),
      findNextSolution els pos = none →
      hintsForSolution (findNextSolution els pos) = [])
    ∧ (∀ (els : List PElem) (pos : Nat) (st : String),
      findNextSolution els pos = some st →
      DROP_EXPLANATIONS.any (fun de =>
        strContains (pyStrip (strReplace st "Explanation" "")) de) = false →
      hintsForSolution (findNextSolution els pos) =
        [pyStrip (strReplace st "Explanation" "")]) := by
  refine ⟨?_, ?_, ?_, ?_⟩
  · intro url els i pos cg q h
    simp only [mkMcqQuestion] at h
    rw [exceptBind_ok_iff] at h
    obtain ⟨qp, _h1, h⟩ := h
    rw [exceptBind_ok_iff] at h
    obtain ⟨cgl, _h2, h⟩ := h
    cases hsc : scanChoicesSingle cgl with
    | error e => simp [hsc, Bind.bind, Except.bind] at h
    | ok pr =>
      obtain ⟨allAns, corr⟩ := pr
      simp only [hsc, Bind.bind, Except.bind, exceptPure_eq_ok,
        Except.ok.injEq] at h
      subst h
      rfl
  · intro url els j pos cb q h
    simp only [mkCrespQuestion] at h
    rw [exceptBind_ok_iff] at h
    obtain ⟨qp, _h1, h⟩ := h
    rw [exceptBind_ok_iff] at h
    obtain ⟨cbl, _h2, h⟩ := h
    cases hsc : scanChoicesMulti cbl with
    | error e => simp [hsc, Bind.bind, Except.bind] at h
    | ok pr =>
      obtain ⟨allAns, corrs⟩ := pr
      simp only [hsc, Bind.bind, Except.bind, exceptPure_eq_ok,
        Except.ok.injEq] at h
      subst h
      rfl
  · intro els pos h
    rw [h]
    rfl
  · intro els pos st h hb
    rw [h]
    simp [hintsForSolution, hb]

/-- C8 witness: the hint rule applied to the concrete first response of
`c8Els`, whose next solution sits two siblings later. -/
theorem claim8_witness :
    mkMcqQuestion "p2" c8Els 0 1 (some exChoices) = Except.ok c8Q1
    ∧ c8Q1.hints = hintsForSolution (findNextSolution c8Els 1) := by
  have h : mkMcqQuestion "p2" c8Els 0 1 (some exChoices) = Except.ok c8Q1 := rfl
  exact ⟨h, claim8_hints_use_next_solution.1 "p2" c8Els 0 1 (some exChoices)
    c8Q1 h⟩

/-- A successfully built single-select question carries the id
`{url_name}-{i+1}` for its family index `i`. -/
theorem mkMcqQuestion_id (url : String) (els : List PElem) (i pos : Nat)
    (cg : Option (List Choice)) (q : Question)
    (h : mkMcqQuestion url els i pos cg = Except.ok q) :
    q.id = url ++ ("-" ++ toString (i + 1)) := by
  simp only [mkMcqQuestion] at h
  rw [exceptBind_ok_iff] at h
  obtain ⟨qp, _h1, h⟩ := h
  rw [exceptBind_ok_iff] at h
  obtain ⟨cgl, _h2, h⟩ := h
  cases hsc : scanChoicesSingle cgl with
  | error e => simp [hsc, Bind.bind, Except.bind] at h
  | ok pr =>
    obtain ⟨allAns, corr⟩ := pr
    simp only [hsc, Bind.bind, Except.bind, exceptPure_eq_ok,
      Except.ok.injEq] at h
    subst h
    rfl

/-- A successfully built multi-select question carries the id
`{url_name}-{j+1}` for its family index `j`. -/
theorem mkCrespQuestion_id (url : String) (els : List PElem) (j pos : Nat)
    (cb : Option (List Choice)) (q : Question)
    (h : mkCrespQuestion url els j pos cb = Except.ok q) :
    q.id = url ++ ("-" ++ toString (j + 1)) := by
  simp only [mkCrespQuestion] at h
  rw [exceptBind_ok_iff] at h
  obtain ⟨qp, _h1, h⟩ := h
  rw [exceptBind_ok_iff] at h
  obtain ⟨cbl, _h2, h⟩ := h
  cases hsc : scanChoicesMulti cbl with
  | error e => simp [hsc, Bind.bind, Except.bind] at h
  | ok pr =>
    obtain ⟨allAns, corrs⟩ := pr
    simp only [hsc, Bind.bind, Except.bind, exceptPure_eq_ok,
      Except.ok.injEq] at h
    subst h
    rfl

/-- The single-select loop produces one question per response element. -/
theorem buildMcqQuestions_length (url : String) (els : List PElem) :
    ∀ (L : List (Nat × (Nat × Option (List Choice)))) (qs : List Question),
      buildMcqQuestions url els L = Except.ok qs → qs.length = L.length := by
  intro L
  induction L with
  | nil =>
    intro qs h
    simp only [buildMcqQuestions, Except.ok.injEq] at h
    subst h
    rfl
  | cons x tl ih =>
    intro qs h
    obtain ⟨i, pos, cg⟩ := x
    simp only [buildMcqQuestions] at h
    cases hq : mkMcqQuestion url els i pos cg with
    | error e => simp [hq, Bind.bind, Except.bind] at h
    | ok q =>
      simp only [hq, Bind.bind, Except.bind] at h
      cases hrest : buildMcqQuestions url els tl with
      | error e => simp [hrest] at h
      | ok qs' =>
        simp only [hrest, exceptPure_eq_ok, Except.ok.injEq] at h
        subst h
        simp [ih qs' hrest]

/-- Inversion of the single-select loop on a non-empty element list. -/
theorem buildMcqQuestions_cons (url : String) (els : List PElem) (i pos : Nat)
    (cg : Option (List Choice)) (tl : List (Nat × (Nat × Option (List Choice))))
    (qs : List Question)
    (h : buildMcqQuestions url els ((i, (pos, cg)) :: tl) = Except.ok qs) :
    ∃ q qs', qs = q :: qs' ∧ mkMcqQuestion url els i pos cg = Except.ok q ∧
      buildMcqQuestions url els tl = Except.ok qs' := by
  simp only [buildMcqQuestions] at h
  cases hq : mkMcqQuestion url els i pos cg with
  | error e => simp [hq, Bind.bind, Except.bind] at h
  | ok q =>
    simp only [hq, Bind.bind, Except.bind] at h
    cases hrest : buildMcqQuestions url els tl with
    | error e => simp [hrest] at h
    | ok qs' =>
      simp only [hrest, exceptPure_eq_ok, Except.ok.injEq] at h
      exact ⟨q, qs', h.symm, rfl, rfl⟩

/-- Inversion of the multi-select loop on a non-empty element list. -/
theorem buildCrespQuestions_cons (url : String) (els : List PElem) (j pos : Nat)
    (cb : Option (List Choice)) (tl : List (Nat × (Nat × Option (List Choice))))
    (qs : List Question)
    (h : buildCrespQuestions url els ((j, (pos, cb)) :: tl) = Except.ok qs) :
    ∃ q qs', qs = q :: qs' ∧ mkCrespQuestion url els j pos cb = Except.ok q ∧
      buildCrespQuestions url els tl = Except.ok qs' := by
  simp only [buildCrespQuestions] at h
  cases hq : mkCrespQuestion url els j pos cb with
  | error e => simp [hq, Bind.bind, Except.bind] at h
  | ok q =>
    simp only [hq, Bind.bind, Except.bind] at h
    cases hrest : buildCrespQuestions url els tl with
    | error e => simp [hrest] at h
    | ok qs' =>
      simp only [hrest, exceptPure_eq_ok, Except.ok.injEq] at h
      exact ⟨q, qs', h.symm, rfl, rfl⟩

/-- C10.  Question ids are assigned per response family independently, each
starting at 1: in a problem holding at least one single-select and at least
one multi-select response, the first question of each family receives the
id `{url_name}-1`, so the problem's question ids are not unique. -/
theorem claim10_duplicate_question_ids :
    ∀ (prob : CNode) (els : List PElem) (url : String) (p2 : CNode),
      prob.data.pdocs = [els] →
      prob.data.url_name = some url →
      mcqsOf els ≠ [] →
      crespsOf els ≠ [] →
      parseQuestionsFromProblem prob = Except.ok p2 →
      ∃ qs, p2.data.questions = some qs ∧
        (qs.map Question.id)[0]? = some (url ++ "-1") ∧
        (qs.map Question.id)[(mcqsOf els).length]? = some (url ++ "-1") ∧
        ¬(qs.map Question.id).Nodup := by
  intro prob els url p2 hpd hurl hm hc hok
  simp only [parseQuestionsFromProblem] at hok
  split at hok
  · simp only [hpd, hurl, pyKey, Bind.bind, Except.bind] at hok
    cases hqa : buildMcqQuestions url els (mcqsOf els).enum with
    | error e => simp [hqa, Bind.bind, Except.bind] at hok
    | ok qsA =>
      simp only [hqa] at hok
      cases hqb : buildCrespQuestions url els (crespsOf els).enum with
      | error e => simp [hqb, Bind.bind, Except.bind] at hok
      | ok qsB =>
        simp only [hqb] at hok
        split at hok
        · simp at hok
        · simp only [exceptPure_eq_ok, Except.ok.injEq] at hok
          subst hok
          have hlenA : qsA.length = (mcqsOf els).length := by
            have h1 := buildMcqQuestions_length url els (mcqsOf els).enum qsA hqa
            rw [h1, List.enum_length]
          obtain ⟨m0, mtl, hmeq⟩ := List.exists_cons_of_ne_nil hm
          obtain ⟨pos0, cg0⟩ := m0
          have hqa2 := hqa
          rw [hmeq, List.enum_cons] at hqa2
          obtain ⟨qA, qsA', hqsA, hmkA, _hrA⟩ :=
            buildMcqQuestions_cons url els 0 pos0 cg0 _ qsA hqa2
          have hidA := mkMcqQuestion_id url els 0 pos0 cg0 qA hmkA
          obtain ⟨c0, ctl, hceq⟩ := List.exists_cons_of_ne_nil hc
          obtain ⟨posC, cbC⟩ := c0
          have hqb2 := hqb
          rw [hceq, List.enum_cons] at hqb2
          obtain ⟨qB, qsB', hqsB, hmkB, _hrB⟩ :=
            buildCrespQuestions_cons url els 0 posC cbC _ qsB hqb2
          have hidB := mkCrespQuestion_id url els 0 posC cbC qB hmkB
          have hone : ("-" ++ toString (0 + 1) : String) = "-1" := by decide
          rw [hone] at hidA hidB
          refine ⟨qsA ++ qsB, rfl, ?_, ?_, ?_⟩
          · rw [hqsA]
            simp [hidA]
          · rw [List.map_append]
            rw [List.getElem?_append_right (by simp [hlenA])]
            simp only [List.length_map, hlenA, Nat.sub_self]
            rw [hqsB]
            simp [hidB]
          · rw [List.map_append]
            intro hnd
            rw [List.nodup_append] at hnd
            obtain ⟨_, _, hdisj⟩ := hnd
            refine hdisj (a := url ++ "-1") ?_ ?_
            · rw [hqsA]
              simp [hidA]
            · rw [hqsB]
              simp [hidB]
  · simp at hok

/-- C10 witness: the duplicate-id law applied to a concrete problem with
one single-select and one multi-select response. -/
theorem claim10_witness :
    parseQuestionsFromProblem c10Problem = Except.ok c10Parsed
    ∧ ((c10Parsed.data.questions.getD []).map Question.id)[0]? =
        some ("p10" ++ "-1")
    ∧ ((c10Parsed.data.questions.getD []).map Question.id)[1]? =
        some ("p10" ++ "-1")
    ∧ ¬((c10Parsed.data.questions.getD []).map Question.id).Nodup := by
  obtain ⟨qs, hqs, h0, h1, hnd⟩ :=
    claim10_duplicate_question_ids c10Problem c10Els "p10" c10Parsed rfl rfl
      (by decide) (by decide) rfl
  refine ⟨rfl, ?_, ?_, ?_⟩
  · simpa [hqs] using h0
  · simpa [hqs] using h1
  · simpa [hqs] using hnd
